import Mathlib

/-!
PatraSaar backend: rate limiter and summary-generation handler.

A shallow embedding of

* `internal/middleware/rate_limiter.go` (`RateLimiter`, `allow`, `cleanup`),
* `internal/models/document.go` (`Document`, `DocumentStatus`),
* `internal/services/document_service.go` (`CreateDocument`, `GetDocument`,
  `UpdateDocumentStatus`, `UpdateDocumentSummary`),
* `internal/services/task_service.go` (`HandleSummaryGeneration`),
* `internal/services/ai_service.go` (`GenerateSummary`, `makeRequest`,
  `StreamQuery`, `streamRequest`),
* `internal/handlers/query.go` (`QueryDocument`, `QueryDocumentSimple`),
* `internal/handlers/upload.go` (`UploadDocument`),
* `internal/handlers/document.go` (`GetDocumentStatus`),
* `internal/services/text_extractor.go` (`ValidateFile`),
* `internal/middleware/metrics.go` and the chain registered in
  `cmd/api/main.go`.

Instants (`time.Time`) and durations (`time.Duration`) are integers counting
nanoseconds; `time.Now()` is an explicit argument of every operation that reads
the clock.  The mutex of the limiter serialises `allow` and `cleanup`, so each
is one atomic state transformer.
-/

namespace PatraSaar

/-! ## Rate limiter -/

/-- The struct `RateLimiter`: the map `requests` from client address to its
recorded instants (a missing key is `none`), `limit` and `window`. -/
structure RateLimiter where
  requests : String → Option (List Int)
  limit : Int
  window : Int

/-- The state built by `NewRateLimiter(limit, window)`: an empty map. -/
def NewRateLimiter (limit : Int) (window : Int) : RateLimiter :=
  { requests := fun _ => none, limit := limit, window := window }

/-- The method `t.After(u)` of `time.Time`: `t` is strictly later than `u`. -/
def After (t u : Int) : Bool := decide (u < t)

/-- The method `t.Add(d)` of `time.Time`. -/
def Add (t d : Int) : Int := t + d

/-- The loop `for _, req := range requests { if req.After(cutoff) { append } }`
shared by `allow` and `cleanup`. -/
def validRequests (cutoff : Int) : List Int → List Int
  | [] => []
  | req :: rest =>
    if After req cutoff then req :: validRequests cutoff rest
    else validRequests cutoff rest

/-- Indexing `rl.requests[clientIP]`: a missing key reads as the nil slice. -/
def RateLimiter.history (rl : RateLimiter) (clientIP : String) : List Int :=
  (rl.requests clientIP).getD []

/-- The method `RateLimiter.allow` with `now` the value of `time.Now()`: the
returned boolean and the limiter state afterwards. -/
def RateLimiter.allow (rl : RateLimiter) (clientIP : String) (now : Int) :
    Bool × RateLimiter :=
  let cutoff := Add now (-rl.window)
  let requests := rl.history clientIP
  let valid := validRequests cutoff requests
  if (valid.length : Int) ≥ rl.limit then
    (false, rl)
  else
    (true, { rl with
      requests := fun ip => if ip = clientIP then some (valid ++ [now]) else rl.requests ip })

/-- The method `RateLimiter.cleanup` with `now` the value of `time.Now()`:
every key of the map is filtered, and deleted when nothing is left. -/
def RateLimiter.cleanup (rl : RateLimiter) (now : Int) : RateLimiter :=
  let cutoff := Add now (-rl.window)
  { rl with
    requests := fun ip =>
      match rl.requests ip with
      | none => none
      | some requests =>
        let valid := validRequests cutoff requests
        if valid.length = 0 then none else some valid }

/-- One call on the limiter, with the clock reading it observes. -/
inductive Call where
  | allow (clientIP : String) (now : Int)
  | cleanup (now : Int)
deriving DecidableEq, Repr

/-- The clock reading of a call. -/
def Call.now : Call → Int
  | .allow _ now => now
  | .cleanup now => now

/-- What an observer records of an `allow` call: client, clock reading and the
boolean returned. -/
structure Admission where
  clientIP : String
  now : Int
  allowed : Bool
deriving DecidableEq, Repr

/-- Runs the calls in order from state `rl`; the record of every `allow` call,
in call order. -/
def runCalls (rl : RateLimiter) : List Call → List Admission
  | [] => []
  | .allow c now :: rest =>
    { clientIP := c, now := now, allowed := (rl.allow c now).1 } ::
      runCalls (rl.allow c now).2 rest
  | .cleanup now :: rest => runCalls (rl.cleanup now) rest

/-- The clock readings at which `allow(c)` returned true, in call order. -/
def admittedAt (c : String) (log : List Admission) : List Int :=
  (log.filter (fun a => decide (a.clientIP = c) && a.allowed)).map Admission.now

/-- How many instants of `ts` lie in the half-open interval `(t - w, t]`. -/
def countInWindow (w t : Int) (ts : List Int) : Nat :=
  (ts.filter (fun a => decide (t - w < a) && decide (a ≤ t))).length

/-- Consecutive `allow(c)` calls at the given clock readings: the booleans
returned, and the final state. -/
def allowSeq (rl : RateLimiter) (c : String) : List Int → List Bool × RateLimiter
  | [] => ([], rl)
  | now :: rest =>
    ((rl.allow c now).1 :: (allowSeq (rl.allow c now).2 c rest).1,
      (allowSeq (rl.allow c now).2 c rest).2)

/-! ## Documents and the document store -/

/-- The type `DocumentStatus` with its four constants. -/
inductive DocumentStatus where
  | StatusPending
  | StatusProcessing
  | StatusCompleted
  | StatusFailed
deriving DecidableEq, Repr

/-- The struct `models.Document`; `Summary` is the nullable `*string`. -/
structure Document where
  ID : String
  Filename : String
  RawText : String
  Summary : Option String
  Status : DocumentStatus
  CreatedAt : Int
  UpdatedAt : Int
  FileSize : Int
  ContentType : String
deriving DecidableEq, Repr

/-- A Go `error` value: `fmt.Errorf` with a plain message, or with `%w`
wrapping another error. -/
inductive GoError where
  | errorf (msg : String)
  | wrapf (msg : String) (inner : GoError)
deriving DecidableEq, Repr

/-- The method `Unwrap` behind `errors.Unwrap`. -/
def GoError.unwrap : GoError → Option GoError
  | .errorf _ => none
  | .wrapf _ inner => some inner

/-- One row of the table `documents`, without its key column `id`. -/
structure Row where
  filename : String
  raw_text : String
  summary : Option String
  status : DocumentStatus
  created_at : Int
  updated_at : Int
  file_size : Int
  content_type : String
deriving DecidableEq, Repr

/-- The table `documents`: the row stored under each `id`, if any. -/
abbrev Table := String → Option Row

/-- The table with no rows. -/
def emptyTable : Table := fun _ => none

/-- Writes `row` under `id`, leaving every other row as it is. -/
def Table.put (db : Table) (id : String) (row : Row) : Table :=
  fun k => if k = id then some row else db k

/-- The `Scan` of a selected row into a `models.Document`. -/
def Row.toDocument (id : String) (row : Row) : Document :=
  { ID := id, Filename := row.filename, RawText := row.raw_text, Summary := row.summary,
    Status := row.status, CreatedAt := row.created_at, UpdatedAt := row.updated_at,
    FileSize := row.file_size, ContentType := row.content_type }

/-- What the database contributes to one statement: the driver error `err` it
reports (`none` when the statement is executed; a reported error means the
statement had no effect) and the value `now` of `CURRENT_TIMESTAMP`. -/
structure DbCall where
  err : Option GoError
  now : Int
deriving DecidableEq, Repr

/-- Modelled from the spec: the declaration of table `documents` is not part of
the sources, so what the `INSERT` of `CreateDocument` leaves to the database is
taken from the spec: the key `id` is generated by the database (the argument
`id`, refused when already in use), `summary` is unset, and both timestamps are
the time of creation.  The method `DocumentService.CreateDocument` itself is
the source: the status inserted is `StatusPending` and an error is wrapped. -/
def CreateDocument (db : Table) (call : DbCall) (id : String)
    (filename rawText contentType : String) (fileSize : Int) :
    Table × Except GoError Document :=
  match call.err with
  | some err => (db, .error (.wrapf "failed to create document: %w" err))
  | none =>
    match db id with
    | some _ =>
      (db, .error (.wrapf "failed to create document: %w" (.errorf "duplicate key value")))
    | none =>
      let row : Row :=
        { filename := filename, raw_text := rawText, summary := none,
          status := .StatusPending, created_at := call.now, updated_at := call.now,
          file_size := fileSize, content_type := contentType }
      (db.put id row, .ok (row.toDocument id))

/-- The method `DocumentService.GetDocument`; `err` is a driver error other
than `pgx.ErrNoRows`, if the query reports one. -/
def GetDocument (db : Table) (err : Option GoError) (id : String) : Except GoError Document :=
  match err with
  | some e => .error (.wrapf "failed to get document: %w" e)
  | none =>
    match db id with
    | none => .error (.errorf "document not found")
    | some row => .ok (row.toDocument id)

/-- The method `DocumentService.UpdateDocumentStatus`: the table afterwards and
the error returned. -/
def UpdateDocumentStatus (db : Table) (call : DbCall) (id : String)
    (status : DocumentStatus) : Table × Option GoError :=
  match call.err with
  | some err => (db, some (.wrapf "failed to update document status: %w" err))
  | none =>
    match db id with
    | none => (db, some (.errorf "document not found"))
    | some row => (db.put id { row with status := status, updated_at := call.now }, none)

/-- The method `DocumentService.UpdateDocumentSummary`: one `UPDATE` setting
`summary` and `status = StatusCompleted` together. -/
def UpdateDocumentSummary (db : Table) (call : DbCall) (id : String)
    (summary : String) : Table × Option GoError :=
  match call.err with
  | some err => (db, some (.wrapf "failed to update document summary: %w" err))
  | none =>
    match db id with
    | none => (db, some (.errorf "document not found"))
    | some row =>
      (db.put id
        { row with summary := some summary, status := .StatusCompleted,
                   updated_at := call.now }, none)

/-! ## The summary-generation task handler -/

/-- The struct `SummaryTaskPayload`. -/
structure SummaryTaskPayload where
  DocumentID : String
deriving DecidableEq, Repr

/-- An `asynq.Task` as the handler sees it: the outcome of
`json.Unmarshal(t.Payload(), &payload)`. -/
structure Task where
  payload : Except GoError SummaryTaskPayload

/-- Everything outside the handler that one run of it observes: the database
side of each store call it can make and the outcome of
`aiService.GenerateSummary` on a given document text. -/
structure RunEnv where
  setProcessing : DbCall
  getDocument : Option GoError
  generateSummary : String → Except GoError String
  setFailed : DbCall
  updateSummary : DbCall

/-- The result of one run of the handler: the error returned (`none` is `nil`),
the table when it returns, and the table after each call that writes to the
store, in order. -/
structure HandlerRun where
  err : Option GoError
  db : Table
  trace : List Table

/-- The method `TaskHandlers.HandleSummaryGeneration`. -/
def HandleSummaryGeneration (db : Table) (t : Task) (env : RunEnv) : HandlerRun :=
  match t.payload with
  | .error err =>
    { err := some (.wrapf "failed to unmarshal payload: %w" err), db := db, trace := [] }
  | .ok payload =>
    let r1 := UpdateDocumentStatus db env.setProcessing payload.DocumentID .StatusProcessing
    match r1.2 with
    | some err =>
      { err := some (.wrapf "failed to update document status: %w" err),
        db := r1.1, trace := [r1.1] }
    | none =>
      match GetDocument r1.1 env.getDocument payload.DocumentID with
      | .error err =>
        let r2 := UpdateDocumentStatus r1.1 env.setFailed payload.DocumentID .StatusFailed
        { err := some (.wrapf "failed to get document: %w" err),
          db := r2.1, trace := [r1.1, r2.1] }
      | .ok document =>
        match env.generateSummary document.RawText with
        | .error err =>
          let r2 := UpdateDocumentStatus r1.1 env.setFailed payload.DocumentID .StatusFailed
          { err := some (.wrapf "failed to generate summary: %w" err),
            db := r2.1, trace := [r1.1, r2.1] }
        | .ok summary =>
          let r3 := UpdateDocumentSummary r1.1 env.updateSummary payload.DocumentID summary
          match r3.2 with
          | some err =>
            { err := some (.wrapf "failed to update document summary: %w" err),
              db := r3.1, trace := [r1.1, r3.1] }
          | none => { err := none, db := r3.1, trace := [r1.1, r3.1] }

/-- The store states the claims range over: the empty table, closed under
`CreateDocument` and under every state a run of `HandleSummaryGeneration`
passes through (a run may start in any such state, which covers workers whose
store calls interleave). -/
inductive Reachable : Table → Prop where
  | empty : Reachable emptyTable
  | create (db : Table) (call : DbCall) (id filename rawText contentType : String)
      (fileSize : Int) :
      Reachable db →
      Reachable (CreateDocument db call id filename rawText contentType fileSize).1
  | handle (db db2 : Table) (t : Task) (env : RunEnv) :
      Reachable db → db2 ∈ (HandleSummaryGeneration db t env).trace → Reachable db2

/-- A status from which the lifecycle does not continue. -/
def DocumentStatus.terminal : DocumentStatus → Bool
  | .StatusCompleted => true
  | .StatusFailed => true
  | _ => false

/-- A run environment in which every store call is executed at time `now` and
the AI client answers `ai`. -/
def RunEnv.reliable (now : Int) (ai : String → Except GoError String) : RunEnv :=
  { setProcessing := { err := none, now := now }, getDocument := none,
    generateSummary := ai, setFailed := { err := none, now := now },
    updateSummary := { err := none, now := now } }

/-- The task whose payload decodes to document id `id`. -/
def Task.forDocument (id : String) : Task := { payload := .ok { DocumentID := id } }

/-! ## The AI client: batch summarisation -/

/-- Replaces the first verb `%w` of a format string by the text of the wrapped
error, as `fmt.Errorf` does when it builds the message. -/
def substW : List Char → List Char → List Char
  | [], _ => []
  | '%' :: 'w' :: rest, inner => inner ++ rest
  | c :: rest, inner => c :: substW rest inner

/-- The method `Error()` of an error built by `fmt.Errorf`. -/
def GoError.Error : GoError → String
  | .errorf msg => msg
  | .wrapf msg inner => String.mk (substW msg.data inner.Error.data)

/-- The predicate `unicode.IsSpace`, by code point. -/
def isSpace (c : Char) : Bool :=
  (9 ≤ c.toNat && c.toNat ≤ 13) || c.toNat = 32 || c.toNat = 0x85 || c.toNat = 0xA0 ||
  c.toNat = 0x1680 || (0x2000 ≤ c.toNat && c.toNat ≤ 0x200A) || c.toNat = 0x2028 ||
  c.toNat = 0x2029 || c.toNat = 0x202F || c.toNat = 0x205F || c.toNat = 0x3000

/-- The library function `strings.TrimSpace`: leading and trailing white space
removed. -/
def TrimSpace (s : String) : String :=
  String.mk ((s.data.dropWhile isSpace).reverse.dropWhile isSpace).reverse

/-- The struct `Message`. -/
structure Message where
  Role : String
  Content : String
deriving DecidableEq, Repr

/-- The struct `AIRequest`. -/
structure AIRequest where
  Model : String
  Messages : List Message
  Stream : Bool
deriving DecidableEq, Repr

/-- The struct `Choice`. -/
structure Choice where
  Message : Message
deriving DecidableEq, Repr

/-- The struct `AIResponse`. -/
structure AIResponse where
  Choices : List Choice
deriving DecidableEq, Repr

/-- The struct `AIService`; `timeout` is the `Timeout` of its HTTP client. -/
structure AIService where
  endpoint : String
  timeout : Int
  maxRetries : Int
deriving DecidableEq, Repr

/-- The constructor `NewAIService`. -/
def NewAIService (endpoint : String) (timeout : Int) (maxRetries : Int) : AIService :=
  { endpoint := endpoint, timeout := timeout, maxRetries := maxRetries }

/-- The constant `time.Second`, in nanoseconds. -/
def Second : Int := 1000000000

/-- What one HTTP exchange of `makeRequest` meets, one constructor for each
point at which the function can fail; `response` is a reply with its status
code, its body and what decoding the body gives. -/
inductive Exchange where
  | marshalError (err : GoError)
  | requestError (err : GoError)
  | transportError (err : GoError)
  | response (statusCode : Int) (body : String) (decoded : Except GoError AIResponse)

/-- The method `AIService.makeRequest`, given the exchange it meets. -/
def makeRequest (x : Exchange) : Except GoError AIResponse :=
  match x with
  | .marshalError err => .error (.wrapf "failed to marshal request: %w" err)
  | .requestError err => .error (.wrapf "failed to create request: %w" err)
  | .transportError err => .error (.wrapf "failed to make request: %w" err)
  | .response statusCode body decoded =>
    if statusCode ≠ 200 then
      .error (.errorf ("API request failed with status " ++ toString statusCode ++ ": " ++ body))
    else
      match decoded with
      | .error err => .error (.wrapf "failed to decode response: %w" err)
      | .ok response => .ok response

/-- The prompt `GenerateSummary` builds around the document text. -/
def summaryPrompt (documentText : String) : String :=
  "You are an expert in Indian legal documents. Please provide a clear, concise summary of the following legal document in simple language that ordinary people can understand. Focus on:\n\n1. Main purpose of the document\n2. Key parties involved\n3. Important terms and conditions\n4. Rights and obligations\n5. Any deadlines or important dates\n\nDocument text:\n"
    ++ documentText ++
  "\n\nPlease provide the summary in simple, non-technical language:"

/-- The request `GenerateSummary` sends. -/
def summaryRequest (documentText : String) : AIRequest :=
  { Model := "gpt-3.5-turbo",
    Messages :=
      [{ Role := "system",
         Content := "You are a helpful assistant that specializes in explaining Indian legal documents in simple language." },
       { Role := "user", Content := summaryPrompt documentText }],
    Stream := false }

/-- What a call of `GenerateSummary` does that can be seen from outside: it
waits (the duration handed to `time.After`) and it calls `makeRequest`. -/
inductive SummaryEvent where
  | wait (d : Int)
  | request (attempt : Nat)
deriving DecidableEq, Repr

/-- Everything outside `GenerateSummary` that one call observes: the exchange
the attempt with a given index meets for a given request, and, for the
`select` before that attempt, the value of `ctx.Err()` when the case
`<-ctx.Done()` is taken (`none` when the timer fires). -/
structure SummaryEnv where
  exchange : Nat → AIRequest → Exchange
  ctxDone : Nat → Option GoError

/-- The result of one call: the two values returned and the events in order. -/
structure SummaryRun where
  summary : String
  err : Option GoError
  events : List SummaryEvent
deriving DecidableEq, Repr

/-- The expression `time.Duration(attempt*attempt) * time.Second`.  The product
stays inside `int64` for every attempt index up to 96038. -/
def backoff (attempt : Nat) : Int := ((attempt * attempt : Nat) : Int) * Second

/-- The error returned after the loop: `fmt.Errorf` with the attempt count and,
under `%w`, the last error (nil when the loop body never ran). -/
def exhaustedError (s : AIService) (lastErr : Option GoError) : GoError :=
  match lastErr with
  | some err =>
    .wrapf ("failed to generate summary after " ++ toString (s.maxRetries + 1)
      ++ " attempts: %w") err
  | none =>
    .errorf ("failed to generate summary after " ++ toString (s.maxRetries + 1)
      ++ " attempts: %!w(<nil>)")

/-- Puts events in front of those of a run. -/
def SummaryRun.after (evs : List SummaryEvent) (r : SummaryRun) : SummaryRun :=
  { r with events := evs ++ r.events }

/-- The events of one iteration that reaches `makeRequest`: for every attempt
but the first the wait of `backoff attempt`, then the request. -/
def attemptEvents (attempt : Nat) : List SummaryEvent :=
  (if attempt > 0 then [.wait (backoff attempt)] else []) ++ [.request attempt]

/-- The value the loop body assigns to `lastErr` for what `makeRequest`
returned, `none` when the body returns a summary instead. -/
def attemptError (r : Except GoError AIResponse) : Option GoError :=
  match r with
  | .error err => some err
  | .ok response =>
    match response.Choices with
    | [] => some (.errorf "no response choices received")
    | _ :: _ => none

/-- The loop `for attempt := 0; attempt <= s.maxRetries; attempt++` of
`GenerateSummary`: `remaining` iterations are left, the next has index
`attempt`, and `lastErr` is the variable of that name. -/
def summaryLoop (s : AIService) (env : SummaryEnv) (request : AIRequest) :
    Nat → Nat → Option GoError → SummaryRun
  | 0, _, lastErr => { summary := "", err := some (exhaustedError s lastErr), events := [] }
  | remaining + 1, attempt, _ =>
    match (if attempt > 0 then env.ctxDone attempt else none) with
    | some err => { summary := "", err := some err, events := [] }
    | none =>
      match makeRequest (env.exchange attempt request) with
      | .error err =>
        (summaryLoop s env request remaining (attempt + 1) (some err)).after
          (attemptEvents attempt)
      | .ok response =>
        match response.Choices with
        | [] =>
          (summaryLoop s env request remaining (attempt + 1)
            (some (.errorf "no response choices received"))).after
            (attemptEvents attempt)
        | choice :: _ =>
          { summary := TrimSpace choice.Message.Content, err := none,
            events := attemptEvents attempt }

/-- The method `AIService.GenerateSummary`: the loop runs for the attempt
indices `0, ..., maxRetries`. -/
def GenerateSummary (s : AIService) (env : SummaryEnv) (documentText : String) : SummaryRun :=
  summaryLoop s env (summaryRequest documentText) (s.maxRetries + 1).toNat 0 none

/-- The events of `n` consecutive iterations that all reach `makeRequest`, the
first with index `attempt`. -/
def eventsFrom : Nat → Nat → List SummaryEvent
  | _, 0 => []
  | attempt, n + 1 => attemptEvents attempt ++ eventsFrom (attempt + 1) n

/-- How many times a run called `makeRequest`. -/
def requestCount (evs : List SummaryEvent) : Nat :=
  (evs.filter (fun e => match e with | .request _ => true | .wait _ => false)).length

/-- The durations a run waited, in order. -/
def waits : List SummaryEvent → List Int
  | [] => []
  | .wait d :: rest => d :: waits rest
  | .request _ :: rest => waits rest

/-! ## The AI client: streaming query -/

/-- The struct `Delta`. -/
structure Delta where
  Content : String
deriving DecidableEq, Repr

/-- The struct `StreamChoice`. -/
structure StreamChoice where
  Delta : Delta
deriving DecidableEq, Repr

/-- The struct `StreamResponse`, one decoded frame. -/
structure StreamResponse where
  Choices : List StreamChoice
deriving DecidableEq, Repr

/-- The prompt `StreamQuery` builds around the document and the question. -/
def queryPrompt (documentContext question : String) : String :=
  "Based on the following legal document, please answer the user\x27s question in simple, easy-to-understand language. If the answer is not directly available in the document, please say so clearly.\n\nDocument context:\n"
    ++ documentContext ++ "\n\nUser question: " ++ question ++
  "\n\nPlease provide a clear, helpful answer:"

/-- The request `StreamQuery` sends. -/
def queryRequest (question documentContext : String) : AIRequest :=
  { Model := "gpt-3.5-turbo",
    Messages :=
      [{ Role := "system",
         Content := "You are a helpful assistant that answers questions about Indian legal documents in simple language." },
       { Role := "user", Content := queryPrompt documentContext question }],
    Stream := true }

/-- What the HTTP exchange of `streamRequest` meets, one constructor for each
point at which the function can fail before the loop; `response` is a reply
with its status code, its body and what the successive calls of
`decoder.Decode` give (after the last element `Decode` returns `io.EOF`). -/
inductive StreamExchange where
  | marshalError (err : GoError)
  | requestError (err : GoError)
  | transportError (err : GoError)
  | response (statusCode : Int) (body : String) (frames : List (Except GoError StreamResponse))

/-- The state in which a `select` over one channel operation and
`<-ctx.Done()` completes: which of its cases can proceed.  When both can, the
Go runtime chooses one of them; `pickOp` says whether it chooses the channel
operation. -/
inductive Ready where
  | opOnly
  | doneOnly
  | both (pickOp : Bool)
deriving DecidableEq, Repr

/-- Whether the context is done when the `select` completes. -/
def Ready.ctxDone : Ready → Bool
  | .opOnly => false
  | .doneOnly => true
  | .both _ => true

/-- Whether the `select` runs its channel operation. -/
def Ready.takesOp : Ready → Bool
  | .opOnly => true
  | .doneOnly => false
  | .both pickOp => pickOp

/-- What the producer goroutine does to `responseChan`. -/
inductive ChanEvent where
  | send (v : String)
  | close
deriving DecidableEq, Repr

/-- Everything outside the producer that one call of `StreamQuery` observes:
the exchange its request meets, the value of `ctx.Err()` once the context is
done, whether the context is done at the check that opens iteration `i` of the
loop, the state in which the sending `select` of iteration `i` completes, and
the state in which the `select` that sends the error chunk completes. -/
structure StreamEnv where
  exchange : AIRequest → StreamExchange
  ctxErr : GoError
  topDone : Nat → Bool
  sendReady : Nat → Ready
  errReady : Ready

/-- The condition `len(streamResp.Choices) > 0 &&
streamResp.Choices[0].Delta.Content != ""` and the content it guards. -/
def frameChunk (streamResp : StreamResponse) : Option String :=
  match streamResp.Choices with
  | [] => none
  | choice :: _ => if choice.Delta.Content ≠ "" then some choice.Delta.Content else none

/-- The loop of `streamRequest` from iteration `i` on, over what `Decode` still
has to give: the values sent on the channel and the error returned. -/
def streamFrames (env : StreamEnv) :
    List (Except GoError StreamResponse) → Nat → List String × Option GoError
  | [], i => if env.topDone i then ([], some env.ctxErr) else ([], none)
  | frame :: rest, i =>
    if env.topDone i then ([], some env.ctxErr)
    else
      match frame with
      | .error err => ([], some (.wrapf "failed to decode stream response: %w" err))
      | .ok streamResp =>
        match frameChunk streamResp with
        | none => streamFrames env rest (i + 1)
        | some content =>
          if (env.sendReady i).takesOp then
            (content :: (streamFrames env rest (i + 1)).1, (streamFrames env rest (i + 1)).2)
          else ([], some env.ctxErr)

/-- The method `AIService.streamRequest`: the values sent on the channel and
the error returned. -/
def streamRequest (env : StreamEnv) (request : AIRequest) : List String × Option GoError :=
  match env.exchange request with
  | .marshalError err => ([], some (.wrapf "failed to marshal request: %w" err))
  | .requestError err => ([], some (.wrapf "failed to create request: %w" err))
  | .transportError err => ([], some (.wrapf "failed to make request: %w" err))
  | .response statusCode body frames =>
    if statusCode ≠ 200 then
      ([], some (.errorf
        ("API request failed with status " ++ toString statusCode ++ ": " ++ body)))
    else streamFrames env frames 0

/-- The goroutine started by `AIService.StreamQuery`: everything it does to the
channel, in order.  `StreamQuery` itself returns the channel and a nil error. -/
def StreamQuery (env : StreamEnv) (question documentContext : String) : List ChanEvent :=
  (streamRequest env (queryRequest question documentContext)).1.map ChanEvent.send ++
    (match (streamRequest env (queryRequest question documentContext)).2 with
      | none => []
      | some err =>
        if env.errReady.takesOp then [ChanEvent.send ("Error: " ++ err.Error)] else []) ++
    [ChanEvent.close]

/-! ## The query handlers -/

/-- The struct `models.QueryRequest`. -/
structure QueryRequest where
  Question : String
deriving DecidableEq, Repr

/-- The struct `models.ErrorResponse`; an empty `Details` is left out of the
JSON. -/
structure ErrorResponse where
  Error : String
  Code : String
  Details : String
deriving DecidableEq, Repr

/-- The struct `models.QueryResponse`. -/
structure QueryResponse where
  Answer : String
deriving DecidableEq, Repr

/-- One server-sent event written by `c.SSEvent(name, data)`. -/
structure SSEvent where
  name : String
  data : String
deriving DecidableEq, Repr

/-- The state in which the `select` of the stream callback completes: which of
the receive from `responseChan` and `<-ctx.Done()` can proceed.  A receive
delivers the next chunk (`some`) or reports the closed channel (`none`).  When
both cases can proceed the Go runtime chooses one; `pickRecv` says whether it
chooses the receive. -/
inductive RecvReady where
  | recvOnly (v : Option String)
  | doneOnly
  | both (v : Option String) (pickRecv : Bool)
deriving DecidableEq, Repr

/-- Whether the context is done when the `select` completes. -/
def RecvReady.ctxDone : RecvReady → Bool
  | .recvOnly _ => false
  | .doneOnly => true
  | .both _ _ => true

/-- The receive the `select` runs, if it runs the receive case. -/
def RecvReady.received : RecvReady → Option (Option String)
  | .recvOnly v => some v
  | .doneOnly => none
  | .both v pickRecv => if pickRecv then some v else none

/-- The callback handed to `c.Stream` by `QueryDocument`: the events it writes
and the boolean it returns. -/
def streamStep (r : RecvReady) : List SSEvent × Bool :=
  match r.received with
  | some none => ([], false)
  | some (some chunk) => ([{ name := "message", data := chunk }], true)
  | none => ([{ name := "error", data := "Request timeout" }], false)

/-- The loop of `c.Stream`, which calls the callback until it returns false:
the events written, and whether the loop has ended when the given states are
used up. -/
def streamLoop : List RecvReady → List SSEvent × Bool
  | [] => ([], false)
  | r :: rest =>
    if (streamStep r).2 then
      ((streamStep r).1 ++ (streamLoop rest).1, (streamLoop rest).2)
    else ((streamStep r).1, true)

/-- The string value of a `DocumentStatus` constant. -/
def DocumentStatus.toString : DocumentStatus → String
  | .StatusPending => "PENDING"
  | .StatusProcessing => "PROCESSING"
  | .StatusCompleted => "COMPLETED"
  | .StatusFailed => "FAILED"

/-- What a query handler answers: a JSON error, a JSON answer, or the event
stream opened after the call `StreamQuery(ctx, question, documentContext)`. -/
inductive QueryOutcome where
  | json (status : Nat) (body : ErrorResponse)
  | answer (status : Nat) (body : QueryResponse)
  | stream (question documentContext : String) (headers : List (String × String))
      (events : List SSEvent) (ended : Bool)
deriving DecidableEq, Repr

/-- Whether the handler called `AIService.StreamQuery`. -/
def QueryOutcome.calledStreamQuery : QueryOutcome → Bool
  | .stream _ _ _ _ _ => true
  | _ => false

/-- The part shared by both query handlers, up to the readiness check: the
response that ends the request there, or the bound request and the document. -/
def queryGate (db : Table) (getErr : Option GoError) (documentID : String)
    (bind : Except GoError QueryRequest) : Except QueryOutcome (QueryRequest × Document) :=
  if documentID = "" then
    .error (.json 400
      { Error := "Document ID is required", Code := "MISSING_DOCUMENT_ID", Details := "" })
  else
    match bind with
    | .error err =>
      .error (.json 400
        { Error := "Invalid request body", Code := "INVALID_REQUEST", Details := err.Error })
    | .ok req =>
      match GetDocument db getErr documentID with
      | .error err =>
        if err.Error = "document not found" then
          .error (.json 404
            { Error := "Document not found", Code := "DOCUMENT_NOT_FOUND", Details := "" })
        else
          .error (.json 500
            { Error := "Failed to retrieve document", Code := "DATABASE_ERROR",
              Details := err.Error })
      | .ok document =>
        if document.Status ≠ .StatusCompleted then
          .error (.json 400
            { Error := "Document is not ready for queries", Code := "DOCUMENT_NOT_READY",
              Details := "Document status: " ++ document.Status.toString })
        else .ok (req, document)

/-- The handler `QueryHandler.QueryDocument`; `schedule` lists the states in
which the successive `select`s of its stream callback complete.  The error
branch after `StreamQuery` is left out: `StreamQuery` always returns nil. -/
def QueryDocument (db : Table) (getErr : Option GoError) (documentID : String)
    (bind : Except GoError QueryRequest) (schedule : List RecvReady) : QueryOutcome :=
  match queryGate db getErr documentID bind with
  | .error response => response
  | .ok (req, document) =>
    .stream req.Question document.RawText
      [("Content-Type", "text/event-stream"), ("Cache-Control", "no-cache"),
        ("Connection", "keep-alive"), ("Access-Control-Allow-Origin", "*")]
      (streamLoop schedule).1 (streamLoop schedule).2

/-- The handler `QueryHandler.QueryDocumentSimple`. -/
def QueryDocumentSimple (db : Table) (getErr : Option GoError) (documentID : String)
    (bind : Except GoError QueryRequest) : QueryOutcome :=
  match queryGate db getErr documentID bind with
  | .error response => response
  | .ok (req, document) =>
    .answer 200
      { Answer := "Based on your document \x27" ++ document.Filename ++
          "\x27, here\x27s what I understand about your question: " ++ req.Question ++
          "\n\nThis is a mock response. The actual AI service integration will provide detailed legal explanations in simple language." }

/-! ## Upload, validation and the status handler -/

/-- What the handler reads of a `multipart.FileHeader`: the file name, the size
and the value of `header.Header.Get("Content-Type")`. -/
structure FileHeader where
  Filename : String
  Size : Int
  ContentType : String
deriving DecidableEq, Repr

/-- The struct `models.UploadResponse`. -/
structure UploadResponse where
  DocumentID : String
  Filename : String
  RawText : String
deriving DecidableEq, Repr

/-- What `UploadDocument` answers. -/
inductive UploadOutcome where
  | json (status : Nat) (body : ErrorResponse)
  | uploaded (status : Nat) (body : UploadResponse)
deriving DecidableEq, Repr

/-- Everything outside `UploadDocument`: what `c.Request.FormFile("file")`
gives and the three interfaces held by the handler (`TextExtractor`,
`DocumentServiceInterface`, `TaskServiceInterface`). -/
structure UploadEnv where
  formFile : Except GoError FileHeader
  validateFile : FileHeader → Int → Option GoError
  extract : String → Except GoError String
  createDocument : String → String → String → Int → Except GoError Document
  enqueueSummaryGeneration : String → Option GoError

/-- One run of `UploadDocument`: the response, the document ids handed to
`EnqueueSummaryGeneration` and the ids for which an enqueue failure was
logged. -/
structure UploadRun where
  response : UploadOutcome
  enqueued : List String
  logged : List String
deriving DecidableEq, Repr

/-- The handler `UploadHandler.UploadDocument`. -/
def UploadDocument (env : UploadEnv) : UploadRun :=
  match env.formFile with
  | .error _ =>
    { response := .json 400 { Error := "No file provided", Code := "INVALID_FILE", Details := "" },
      enqueued := [], logged := [] }
  | .ok header =>
    match env.validateFile header 100 with
    | some err =>
      { response := .json 400 { Error := err.Error, Code := "VALIDATION_ERROR", Details := "" },
        enqueued := [], logged := [] }
    | none =>
      match env.extract header.ContentType with
      | .error err =>
        { response := .json 500
            { Error := "Failed to extract text from document", Code := "EXTRACTION_ERROR",
              Details := err.Error },
          enqueued := [], logged := [] }
      | .ok text =>
        if text.length = 0 then
          { response := .json 400
              { Error := "No text content found in the document", Code := "EMPTY_DOCUMENT",
                Details := "" },
            enqueued := [], logged := [] }
        else
          match env.createDocument header.Filename text header.ContentType header.Size with
          | .error err =>
            { response := .json 500
                { Error := "Failed to save document", Code := "DATABASE_ERROR",
                  Details := err.Error },
              enqueued := [], logged := [] }
          | .ok document =>
            { response := .uploaded 200
                { DocumentID := document.ID, Filename := document.Filename,
                  RawText := document.RawText },
              enqueued := [document.ID],
              logged :=
                match env.enqueueSummaryGeneration document.ID with
                | some _ => [document.ID]
                | none => [] }

/-- Whether the list `s` begins with the list `p`. -/
def startsWith : List Char → List Char → Bool
  | _, [] => true
  | [], _ :: _ => false
  | c :: s, d :: p => c == d && startsWith s p

/-- The library function `strings.HasSuffix`. -/
def HasSuffix (s suffix : String) : Bool := startsWith s.data.reverse suffix.data.reverse

/-- The library function `strings.ToLower` on the letters A to Z; the lower
case of a character outside ASCII is never one of the characters the suffixes
below are made of. -/
def ToLower (s : String) : String := String.mk (s.data.map Char.toLower)

/-- The struct `DocumentProcessor`. -/
structure DocumentProcessor where
  maxFileSize : Int
  maxPages : Int
deriving DecidableEq, Repr

/-- The constructor `NewDocumentProcessor`. -/
def NewDocumentProcessor (maxFileSize : Int) (maxPages : Int) : DocumentProcessor :=
  { maxFileSize := maxFileSize, maxPages := maxPages }

/-- The method `DocumentProcessor.ValidateFile`; `none` is the nil error. -/
def ValidateFile (dp : DocumentProcessor) (header : FileHeader) (_maxPages : Int) :
    Option GoError :=
  if header.Size > dp.maxFileSize then
    some (.errorf ("file size " ++ toString header.Size ++
      " bytes exceeds maximum allowed size " ++ toString dp.maxFileSize ++ " bytes"))
  else if !HasSuffix (ToLower header.Filename) ".txt" &&
      !HasSuffix (ToLower header.Filename) ".pdf" then
    some (.errorf "unsupported file type. Only .txt and .pdf files are allowed")
  else none

/-- The struct `models.StatusResponse`; a nil `Summary` is left out of the
JSON. -/
structure StatusResponse where
  Status : DocumentStatus
  Summary : Option String
deriving DecidableEq, Repr

/-- What `GetDocumentStatus` answers. -/
inductive StatusOutcome where
  | json (status : Nat) (body : ErrorResponse)
  | status (status : Nat) (body : StatusResponse)
deriving DecidableEq, Repr

/-- The handler `DocumentHandler.GetDocumentStatus`. -/
def GetDocumentStatus (db : Table) (getErr : Option GoError) (documentID : String) :
    StatusOutcome :=
  if documentID = "" then
    .json 400 { Error := "Document ID is required", Code := "MISSING_DOCUMENT_ID", Details := "" }
  else
    match GetDocument db getErr documentID with
    | .error err =>
      if err.Error = "document not found" then
        .json 404 { Error := "Document not found", Code := "DOCUMENT_NOT_FOUND", Details := "" }
      else
        .json 500
          { Error := "Failed to retrieve document", Code := "DATABASE_ERROR",
            Details := err.Error }
    | .ok document =>
      .status 200
        { Status := document.Status,
          Summary := match document.Summary with
            | some summary => some summary
            | none => none }

/-! ## Process-wide state and the middleware chain -/

/-- A limiter with limit 1 and window 10 in which client 10.0.0.1 has one
recorded request, at instant 0. -/
def boundaryLimiter : RateLimiter :=
  { requests := fun ip => if ip = "10.0.0.1" then some [0] else none, limit := 1, window := 10 }

/-- A limiter with limit 3 and window 1000 after client A made four requests in
quick succession (the fourth was rejected) and client B made one. -/
def busyLimiter : RateLimiter :=
  ((allowSeq (NewRateLimiter 3 1000) "A" [0, 100, 200, 300]).2.allow "B" 400).2

/-- Calls with non-decreasing clock readings on a limiter with limit 2 and
window 10. -/
def sampleCalls : List Call :=
  [.allow "A" 0, .allow "A" 1, .allow "A" 2, .cleanup 5, .allow "B" 6, .allow "A" 11]

/-- The store after one upload: document doc-1, just created. -/
def createdTable : Table :=
  (CreateDocument emptyTable { err := none, now := 0 } "doc-1" "deed.pdf" "sale deed text"
    "application/pdf" 14).1

/-- The store after the summary task of doc-1 ran once and succeeded. -/
def completedTable : Table :=
  (HandleSummaryGeneration createdTable (Task.forDocument "doc-1")
    (RunEnv.reliable 10 (fun _ => .ok "a sale deed"))).db

/-- A run environment in which the AI client fails. -/
def aiDown : RunEnv :=
  RunEnv.reliable 20 (fun _ => .error (.errorf "context deadline exceeded"))

/-- A run environment in which the AI client answers and the final `UPDATE`
is refused by the database. -/
def persistDown : RunEnv :=
  { RunEnv.reliable 30 (fun _ => .ok "a sale deed") with
    updateSummary := { err := some (.errorf "connection reset by peer"), now := 30 } }

/-- The row of doc-1 in `createdTable`. -/
def createdRow : Row :=
  { filename := "deed.pdf", raw_text := "sale deed text", summary := none,
    status := .StatusPending, created_at := 0, updated_at := 0, file_size := 14,
    content_type := "application/pdf" }

/-- The store after the summary task of doc-1 was delivered again, this time
with the AI client failing. -/
def failedAfterCompletedTable : Table :=
  (HandleSummaryGeneration completedTable (Task.forDocument "doc-1") aiDown).db

/-- The AI client as the worker builds it: three retries. -/
def workerAI : AIService := NewAIService "http://localhost:8000" (120 * Second) 3

/-- An AI client configured with one retry. -/
def oneRetryAI : AIService := NewAIService "http://localhost:8000" (120 * Second) 1

/-- A backend that is busy on the first attempt, answers without choices on the
second and answers on the third; no wait is cut short. -/
def flakyBackend : SummaryEnv :=
  { exchange := fun k _ =>
      if k = 0 then .response 503 "busy" (.ok { Choices := [] })
      else if k = 1 then .response 200 "" (.ok { Choices := [] })
      else .response 200 ""
        (.ok { Choices := [{ Message := { Role := "assistant", Content := "  a sale deed \n" } }] }),
    ctxDone := fun _ => none }

/-- A backend that refuses the connection on every attempt but the one with
index 3, which gets status 500; no wait is cut short. -/
def deadBackend : SummaryEnv :=
  { exchange := fun k _ =>
      if k = 3 then .response 500 "down" (.ok { Choices := [] })
      else .transportError (.errorf "connection refused"),
    ctxDone := fun _ => none }

/-- A decoded frame whose first choice carries `content`. -/
def frameOf (content : String) : StreamResponse :=
  { Choices := [{ Delta := { Content := content } }] }

/-- A stream of four frames (a chunk, a frame without choices, a frame with
empty content, a chunk) read to its end by a producer whose context is never
done and whose sends all proceed. -/
def chattyStream : StreamEnv :=
  { exchange := fun _ =>
      .response 200 "" [.ok (frameOf "Hello"), .ok { Choices := [] }, .ok (frameOf ""),
        .ok (frameOf " world")],
    ctxErr := .errorf "context canceled",
    topDone := fun _ => false, sendReady := fun _ => .opOnly, errReady := .opOnly }

/-- The same producer on a stream whose second frame does not decode. -/
def brokenStream : StreamEnv :=
  { chattyStream with
    exchange := fun _ =>
      .response 200 "" [.ok (frameOf "Hello"), .error (.errorf "unexpected EOF"),
        .ok (frameOf " world")] }

/-- The event `c.SSEvent("message", chunk)`. -/
def messageEvent (chunk : String) : SSEvent := { name := "message", data := chunk }

/-- The headers `QueryDocument` sets before it streams. -/
def sseHeaders : List (String × String) :=
  [("Content-Type", "text/event-stream"), ("Cache-Control", "no-cache"),
    ("Connection", "keep-alive"), ("Access-Control-Allow-Origin", "*")]

/-- The row of doc-1 in `completedTable`. -/
def completedRow : Row :=
  { createdRow with summary := some "a sale deed", status := .StatusCompleted, updated_at := 10 }

/-- The document processor as the API server builds it: 50 MB, 100 pages. -/
def apiProcessor : DocumentProcessor := NewDocumentProcessor (50 * 1024 * 1024) 100

/-- An uploaded file named deed.pdf. -/
def deedHeader : FileHeader :=
  { Filename := "deed.pdf", Size := 14, ContentType := "application/pdf" }

/-- An upload of deed.pdf with the real validation, an extractor that returns
the text, an empty store and a queue whose answer is `queue`. -/
def deedUpload (queue : Option GoError) : UploadEnv :=
  { formFile := .ok deedHeader,
    validateFile := ValidateFile apiProcessor,
    extract := fun _ => .ok "sale deed text",
    createDocument := fun filename text contentType size =>
      (CreateDocument emptyTable { err := none, now := 0 } "doc-1" filename text contentType
        size).2,
    enqueueSummaryGeneration := fun _ => queue }

/-- A file of 1024 bytes with the given name. -/
def fileNamed (filename : String) : FileHeader :=
  { Filename := filename, Size := 1024, ContentType := "application/octet-stream" }

/-- Calls on `busyLimiter` after the window of its first requests has passed. -/
def laterCalls : List Call :=
  [.allow "A" 1150, .allow "A" 1160, .allow "A" 1170, .allow "B" 1180, .allow "A" 1201]

/-! ## Theorems -/

/-! ### Lemmas on the filter loop -/

theorem validRequests_eq_filter (cutoff : Int) (l : List Int) :
    validRequests cutoff l = l.filter (fun t => decide (cutoff < t)) := by
  induction l with
  | nil => rfl
  | cons a l ih =>
    by_cases h : cutoff < a
    · simp [validRequests, After, h, ih]
    · simp [validRequests, After, h, ih]

theorem validRequests_append (cutoff : Int) (l₁ l₂ : List Int) :
    validRequests cutoff (l₁ ++ l₂) = validRequests cutoff l₁ ++ validRequests cutoff l₂ := by
  simp [validRequests_eq_filter]

theorem validRequests_of_all_after (cutoff : Int) (l : List Int)
    (h : ∀ a ∈ l, cutoff < a) : validRequests cutoff l = l := by
  rw [validRequests_eq_filter]
  exact List.filter_eq_self.mpr (fun a ha => by simpa using h a ha)

theorem validRequests_of_none_after (cutoff : Int) (l : List Int)
    (h : ∀ a ∈ l, a ≤ cutoff) : validRequests cutoff l = [] := by
  rw [validRequests_eq_filter]
  exact List.filter_eq_nil_iff.mpr (fun a ha => by simpa using h a ha)

/-- Filtering at a later cutoff absorbs an earlier filtering. -/
theorem filter_after_validRequests (cutoff x : Int) (l : List Int) (hx : cutoff ≤ x) :
    (validRequests cutoff l).filter (fun t => decide (x < t)) =
      l.filter (fun t => decide (x < t)) := by
  rw [validRequests_eq_filter, List.filter_filter]
  apply List.filter_congr
  intro a _
  by_cases h : x < a
  · have : cutoff < a := lt_of_le_of_lt hx h
    simp [h, this]
  · simp [h]

/-! ### The admission check -/

theorem allow_fst (rl : RateLimiter) (c : String) (now : Int) :
    (rl.allow c now).1 =
      decide (((validRequests (now - rl.window) (rl.history c)).length : Int) < rl.limit) := by
  unfold RateLimiter.allow Add
  simp only [← sub_eq_add_neg]
  by_cases h : ((validRequests (now - rl.window) (rl.history c)).length : Int) ≥ rl.limit
  · rw [if_pos h]
    simp [not_lt.mpr h]
  · rw [if_neg h]
    simp [lt_of_not_ge h]

theorem allow_snd_of_true (rl : RateLimiter) (c : String) (now : Int)
    (h : (rl.allow c now).1 = true) :
    (rl.allow c now).2 =
      { rl with requests := fun ip =>
          if ip = c then some (validRequests (now - rl.window) (rl.history c) ++ [now])
          else rl.requests ip } := by
  have h1 := allow_fst rl c now
  rw [h] at h1
  have h2 : ¬ ((validRequests (now - rl.window) (rl.history c)).length : Int) ≥ rl.limit := by
    have := of_decide_eq_true h1.symm
    exact not_le.mpr this
  unfold RateLimiter.allow Add
  simp only [← sub_eq_add_neg]
  rw [if_neg h2]

theorem allow_snd_of_false (rl : RateLimiter) (c : String) (now : Int)
    (h : (rl.allow c now).1 = false) : (rl.allow c now).2 = rl := by
  have h1 := allow_fst rl c now
  rw [h] at h1
  have h2 : ((validRequests (now - rl.window) (rl.history c)).length : Int) ≥ rl.limit := by
    have := of_decide_eq_false h1.symm
    exact not_lt.mp this
  unfold RateLimiter.allow Add
  simp only [← sub_eq_add_neg]
  rw [if_pos h2]

theorem allow_limit (rl : RateLimiter) (c : String) (now : Int) :
    (rl.allow c now).2.limit = rl.limit := by
  cases h : (rl.allow c now).1
  · rw [allow_snd_of_false rl c now h]
  · rw [allow_snd_of_true rl c now h]

theorem allow_window (rl : RateLimiter) (c : String) (now : Int) :
    (rl.allow c now).2.window = rl.window := by
  cases h : (rl.allow c now).1
  · rw [allow_snd_of_false rl c now h]
  · rw [allow_snd_of_true rl c now h]

theorem allow_history_other (rl : RateLimiter) (a b : String) (now : Int) (hab : a ≠ b) :
    (rl.allow a now).2.requests b = rl.requests b := by
  cases h : (rl.allow a now).1
  · rw [allow_snd_of_false rl a now h]
  · rw [allow_snd_of_true rl a now h]
    simp [Ne.symm hab]

theorem allow_history_self (rl : RateLimiter) (c : String) (now : Int)
    (h : (rl.allow c now).1 = true) :
    (rl.allow c now).2.history c = validRequests (now - rl.window) (rl.history c) ++ [now] := by
  rw [allow_snd_of_true rl c now h]
  simp [RateLimiter.history]


/-- C1, amended. For every limiter state, client and clock reading, the
timestamps `allow` keeps are exactly those strictly after the cutoff
`now - window`, in their original order (a timestamp equal to the cutoff is
discarded); it returns true exactly when the number kept is strictly below
`limit`; when it returns true the new history of the client is the kept
timestamps followed by `now`, and when it returns false the state is unchanged. -/
theorem allow_contract (rl : RateLimiter) (c : String) (now : Int) :
    (∀ t, t ∈ validRequests (Add now (-rl.window)) (rl.history c) ↔
        t ∈ rl.history c ∧ now - rl.window < t) ∧
    validRequests (Add now (-rl.window)) (rl.history c) =
        (rl.history c).filter (fun t => decide (now - rl.window < t)) ∧
    ((rl.allow c now).1 = true ↔
        (((rl.history c).filter (fun t => decide (now - rl.window < t))).length : Int)
          < rl.limit) ∧
    ((rl.allow c now).1 = true →
        (rl.allow c now).2.requests c =
          some ((rl.history c).filter (fun t => decide (now - rl.window < t)) ++ [now])) ∧
    ((rl.allow c now).1 = false → (rl.allow c now).2 = rl) := by
  have hcut : Add now (-rl.window) = now - rl.window := by
    unfold Add
    exact (sub_eq_add_neg now rl.window).symm
  rw [hcut]
  refine ⟨?_, validRequests_eq_filter _ _, ?_, ?_, allow_snd_of_false rl c now⟩
  · intro t
    rw [validRequests_eq_filter]
    simp [List.mem_filter]
  · rw [allow_fst, validRequests_eq_filter]
    simp
  · intro h
    rw [allow_snd_of_true rl c now h, validRequests_eq_filter]
    simp

/-- C1, in use: at the state `boundaryLimiter` and clock reading 25 the single
recorded request (instant 0) is discarded and the request is admitted. -/
theorem allow_contract_witness :
    (boundaryLimiter.allow "10.0.0.1" 25).1 = true ∧
    (boundaryLimiter.allow "10.0.0.1" 25).2.requests "10.0.0.1" = some [25] := by
  have h := allow_contract boundaryLimiter "10.0.0.1" 25
  have h1 : (boundaryLimiter.allow "10.0.0.1" 25).1 = true := h.2.2.1.mpr (by decide)
  exact ⟨h1, by rw [h.2.2.2.1 h1]; decide⟩

/-- C1 as stated fails on the boundary: with window 10 and clock reading 10 the
recorded instant 0 satisfies `0 >= now - window`, yet `allow` discards it (the
new history is `[10]`, not `[0, 10]`) and returns true although the number of
timestamps with `t >= now - window`, namely 1, is not below the limit 1. -/
theorem allow_keeps_cutoff_counterexample :
    boundaryLimiter.history "10.0.0.1" = [0] ∧
    (0 : Int) ≥ 10 - boundaryLimiter.window ∧
    (boundaryLimiter.allow "10.0.0.1" 10).1 = true ∧
    (boundaryLimiter.allow "10.0.0.1" 10).2.requests "10.0.0.1" = some [10] ∧
    ¬ ((((boundaryLimiter.history "10.0.0.1").filter
          (fun t => decide (10 - boundaryLimiter.window ≤ t))).length : Int)
        < boundaryLimiter.limit) := by
  refine ⟨by decide, by decide, by decide, by decide, by decide⟩

/-- C4. Recovery after the window: when the limit is at least 1 and every
timestamp recorded for client `A` is at or before `t`, a call `allow(A)` at any
clock reading `now >= t + window` returns true. -/
theorem allow_after_window (rl : RateLimiter) (A : String) (t now : Int)
    (hL : 1 ≤ rl.limit) (hall : ∀ a ∈ rl.history A, a ≤ t)
    (hnow : t + rl.window ≤ now) : (rl.allow A now).1 = true := by
  rw [allow_fst]
  have hnone : validRequests (now - rl.window) (rl.history A) = [] := by
    apply validRequests_of_none_after
    intro a ha
    have := hall a ha
    omega
  rw [hnone]
  simp only [List.length_nil, Nat.cast_zero, decide_eq_true_eq]
  omega

/-- C4, in use: in `busyLimiter` client A has just been rejected and its
timestamps are all at or before 200; at clock reading 1200 it is admitted. -/
theorem allow_after_window_witness :
    (1 ≤ busyLimiter.limit ∧ (∀ a ∈ busyLimiter.history "A", a ≤ 200) ∧
      (busyLimiter.allow "A" 300).1 = false) ∧
    (busyLimiter.allow "A" 1200).1 = true :=
  ⟨⟨by decide, by decide, by decide⟩,
    allow_after_window busyLimiter "A" 200 1200 (by decide) (by decide) (by decide)⟩

/-- C5. Client independence: for distinct clients `A` and `B`, `allow(A)` leaves
the map entry of `B` unchanged, and the boolean returned by `allow(B)` at a
given clock reading is the same in any two limiter states that agree on the
history of `B`, on `limit` and on `window`. -/
theorem allow_client_independent (rl rl2 : RateLimiter) (A B : String) (nowA nowB : Int)
    (hAB : A ≠ B) (hhist : rl.history B = rl2.history B)
    (hlimit : rl.limit = rl2.limit) (hwindow : rl.window = rl2.window) :
    (rl.allow A nowA).2.requests B = rl.requests B ∧
    (rl.allow B nowB).1 = (rl2.allow B nowB).1 := by
  refine ⟨allow_history_other rl A B nowA hAB, ?_⟩
  rw [allow_fst, allow_fst, hhist, hlimit, hwindow]

/-- C5, in use: `busyLimiter` and the same limiter after one more request of A
give client B the same answer, and B keeps its history. -/
theorem allow_client_independent_witness :
    ((busyLimiter.allow "A" 1500).2.requests "A" ≠ busyLimiter.requests "A") ∧
    (busyLimiter.allow "A" 1500).2.requests "B" = busyLimiter.requests "B" ∧
    (busyLimiter.allow "B" 1600).1 = ((busyLimiter.allow "A" 1500).2.allow "B" 1600).1 :=
  ⟨by decide,
    allow_client_independent busyLimiter (busyLimiter.allow "A" 1500).2 "A" "B" 1500 1600
      (by decide) (by decide) (by decide) (by decide)⟩

/-! ### Bursts of requests from one client -/

theorem allowSeq_append (rl : RateLimiter) (c : String) (xs ys : List Int) :
    allowSeq rl c (xs ++ ys) =
      ((allowSeq rl c xs).1 ++ (allowSeq (allowSeq rl c xs).2 c ys).1,
        (allowSeq (allowSeq rl c xs).2 c ys).2) := by
  induction xs generalizing rl with
  | nil => rfl
  | cons x xs ih =>
    show allowSeq rl c (x :: (xs ++ ys)) = _
    simp only [allowSeq, ih, List.cons_append]

/-- While every recorded and every requested instant lies inside the window of
every request and the limit is not reached, all requests are admitted and
recorded. -/
theorem allowSeq_admits (c : String) (ts : List Int) :
    ∀ rl : RateLimiter,
      (∀ now ∈ ts, ∀ a ∈ rl.history c ++ ts, now - rl.window < a) →
      (((rl.history c).length + ts.length : Nat) : Int) ≤ rl.limit →
      (allowSeq rl c ts).1 = List.replicate ts.length true ∧
      (allowSeq rl c ts).2.history c = rl.history c ++ ts ∧
      (allowSeq rl c ts).2.limit = rl.limit ∧
      (allowSeq rl c ts).2.window = rl.window := by
  induction ts with
  | nil => intro rl _ _; simp [allowSeq]
  | cons now rest ih =>
    intro rl hin hlen
    have hkeep : validRequests (now - rl.window) (rl.history c) = rl.history c := by
      apply validRequests_of_all_after
      intro a ha
      exact hin now (List.mem_cons_self _ _) a (List.mem_append_left _ ha)
    have htrue : (rl.allow c now).1 = true := by
      rw [allow_fst, hkeep]
      simp only [List.length_cons, decide_eq_true_eq] at hlen ⊢
      push_cast at hlen
      omega
    have hhist : (rl.allow c now).2.history c = rl.history c ++ [now] := by
      rw [allow_history_self rl c now htrue, hkeep]
    have hw := allow_window rl c now
    have hl := allow_limit rl c now
    have hrec := ih (rl.allow c now).2 (by
        intro n hn a ha
        rw [hw]
        rw [hhist, List.append_assoc] at ha
        exact hin n (List.mem_cons_of_mem _ hn) a (by simpa using ha)) (by
        rw [hhist, hl]
        simp only [List.length_append, List.length_cons, List.length_nil] at hlen ⊢
        push_cast at hlen ⊢
        omega)
    refine ⟨?_, ?_, ?_, ?_⟩
    · simp only [allowSeq, htrue, hrec.1, List.length_cons, List.replicate_succ]
    · simp only [allowSeq, hrec.2.1, hhist, List.append_assoc, List.singleton_append]
    · simp only [allowSeq, hrec.2.2.1, hl]
    · simp only [allowSeq, hrec.2.2.2, hw]

/-- In a non-decreasing list every element lies between the first and the last. -/
theorem chain_bounds (t1 : Int) (ts : List Int) (h : List.Chain' (· ≤ ·) (t1 :: ts)) :
    ∀ x ∈ t1 :: ts, t1 ≤ x ∧ x ≤ (t1 :: ts).getLast (List.cons_ne_nil t1 ts) := by
  have hp : List.Pairwise (· ≤ ·) (t1 :: ts) := List.chain'_iff_pairwise.mp h
  intro x hx
  constructor
  · rcases List.mem_cons.mp hx with rfl | hx2
    · exact le_refl _
    · exact (List.pairwise_cons.mp hp).1 x hx2
  · have hsplit := List.dropLast_append_getLast (List.cons_ne_nil t1 ts)
    rw [← hsplit] at hp hx
    rcases List.mem_append.mp hx with hx1 | hx2
    · exact (List.pairwise_append.mp hp).2.2 x hx1 _ (List.mem_singleton_self _)
    · rw [List.mem_singleton.mp hx2]

/-- C3. For every limit `L >= 1` and window `W > 0`, from a limiter with no
history for client `A`: when `A` makes `L + 1` requests at non-decreasing clock
readings `t1, ..., t(L+1)` with `t(L+1) - t1 < W`, the first `L` calls of
`allow(A)` return true and the last returns false. -/
theorem allow_burst (L : Nat) (W : Int) (rl : RateLimiter) (A : String) (t1 : Int)
    (ts : List Int) (hL : 1 ≤ L) (hW : 0 < W) (hlim : rl.limit = (L : Int))
    (hwin : rl.window = W) (hA : rl.history A = [])
    (hlen : (t1 :: ts).length = L + 1) (hmono : List.Chain' (· ≤ ·) (t1 :: ts))
    (hspan : (t1 :: ts).getLast (List.cons_ne_nil t1 ts) - t1 < W) :
    (allowSeq rl A (t1 :: ts)).1 = List.replicate L true ++ [false] := by
  have _ := hL
  have _ := hW
  have hb := chain_bounds t1 ts hmono
  have hsplit := List.dropLast_append_getLast (List.cons_ne_nil t1 ts)
  have hinit : (t1 :: ts).dropLast.length = L := by
    rw [List.length_dropLast, hlen]
    rfl
  have hall : ∀ now ∈ t1 :: ts, ∀ a ∈ t1 :: ts, now - rl.window < a := by
    intro now hnow a ha
    have h1 := (hb now hnow).2
    have h2 := (hb a ha).1
    rw [hwin]
    omega
  have hsub : ∀ x ∈ (t1 :: ts).dropLast, x ∈ t1 :: ts :=
    fun x hx => List.dropLast_subset _ hx
  have hadm := allowSeq_admits A (t1 :: ts).dropLast rl (by
      intro now hnow a ha
      rw [hA, List.nil_append] at ha
      exact hall now (hsub now hnow) a (hsub a ha)) (by
      rw [hA, hinit, hlim]
      simp)
  rw [hA, List.nil_append, hinit] at hadm
  rw [← hsplit, allowSeq_append, hadm.1]
  have hlast : ((allowSeq rl A (t1 :: ts).dropLast).2.allow A
      ((t1 :: ts).getLast (List.cons_ne_nil t1 ts))).1 = false := by
    rw [allow_fst, hadm.2.1, hadm.2.2.1, hadm.2.2.2, validRequests_of_all_after, hinit, hlim]
    · simp
    · intro a ha
      exact hall _ (List.getLast_mem _) a (hsub a ha)
  simp only [allowSeq, hlast]

/-- C3, in use: limit 3 and window 1000, requests at 0, 100, 200 and 999: three
admitted, the fourth rejected. -/
theorem allow_burst_witness :
    (allowSeq (NewRateLimiter 3 1000) "A" [0, 100, 200, 999]).1 = [true, true, true, false] :=
  allow_burst 3 1000 (NewRateLimiter 3 1000) "A" 0 [100, 200, 999] (by decide) (by decide)
    rfl rfl rfl rfl (by simp) (by decide)

/-! ### The sliding-window bound -/

theorem cleanup_history (rl : RateLimiter) (c : String) (now : Int) :
    (rl.cleanup now).history c = validRequests (now - rl.window) (rl.history c) := by
  unfold RateLimiter.cleanup RateLimiter.history Add
  simp only [← sub_eq_add_neg]
  cases h : rl.requests c with
  | none => simp [validRequests]
  | some l =>
    by_cases hv : (validRequests (now - rl.window) l).length = 0
    · simp [hv, List.length_eq_zero.mp hv]
    · simp [hv]

theorem admittedAt_append (c : String) (xs ys : List Admission) :
    admittedAt c (xs ++ ys) = admittedAt c xs ++ admittedAt c ys := by
  simp [admittedAt]

theorem countInWindow_append (w t : Int) (xs ys : List Int) :
    countInWindow w t (xs ++ ys) = countInWindow w t xs + countInWindow w t ys := by
  simp [countInWindow]

/-- The instants of `ts` in the window ending at `t` are among those after
`now - w`, whenever `now` is at or before `t`. -/
theorem countInWindow_le_after (w t now : Int) (ts : List Int) (hnow : now ≤ t) :
    countInWindow w t ts ≤ (ts.filter (fun a => decide (now - w < a))).length := by
  induction ts with
  | nil => simp [countInWindow]
  | cons a ts ih =>
    unfold countInWindow at ih ⊢
    by_cases h1 : t - w < a
    · have h2 : now - w < a := by omega
      by_cases h3 : a ≤ t
      · simp only [List.filter_cons, h1, h2, h3, decide_True, Bool.and_self, if_true,
          List.length_cons]
        omega
      · simp only [List.filter_cons, h1, h2, h3, decide_True, decide_False, Bool.and_false,
          if_true, List.length_cons]
        simp only [Bool.false_eq_true, if_false]
        omega
    · by_cases h2 : now - w < a
      · simp only [List.filter_cons, h1, h2, decide_True, decide_False, Bool.false_and,
          if_true, List.length_cons]
        simp only [Bool.false_eq_true, if_false]
        omega
      · simp only [List.filter_cons, h1, h2, decide_False, Bool.false_and]
        simp only [Bool.false_eq_true, if_false]
        exact ih

/-- The invariant behind the bound: as long as the history of `c` agrees with
the admitted instants on everything a later call can still keep, and the bound
holds for what was admitted so far, it holds after any further calls. -/
theorem runCalls_bound (c : String) (calls : List Call) :
    ∀ (rl : RateLimiter) (pre : List Admission) (lo : Int),
      (∀ x, lo - rl.window ≤ x →
        (rl.history c).filter (fun a => decide (x < a)) =
          (admittedAt c pre).filter (fun a => decide (x < a))) →
      List.Chain (· ≤ ·) lo (calls.map Call.now) →
      (∀ t, (countInWindow rl.window t (admittedAt c pre) : Int) ≤ max rl.limit 0) →
      ∀ t, (countInWindow rl.window t (admittedAt c (pre ++ runCalls rl calls)) : Int)
        ≤ max rl.limit 0 := by
  induction calls with
  | nil =>
    intro rl pre lo _ _ hgood t
    simpa [runCalls] using hgood t
  | cons call rest ih =>
    intro rl pre lo hinv hchain hgood t
    cases call with
    | cleanup now =>
      simp only [List.map_cons, Call.now, List.chain_cons] at hchain
      have hstep := ih (rl.cleanup now) pre now (by
          intro x hx
          have hx2 : now - rl.window ≤ x := hx
          rw [cleanup_history, filter_after_validRequests _ _ _ hx2]
          exact hinv x (by omega)) hchain.2 hgood t
      simpa [runCalls] using hstep
    | allow c2 now =>
      simp only [List.map_cons, Call.now, List.chain_cons] at hchain
      have hw := allow_window rl c2 now
      have hl := allow_limit rl c2 now
      have hsplit : pre ++ runCalls rl (Call.allow c2 now :: rest) =
          (pre ++ [{ clientIP := c2, now := now, allowed := (rl.allow c2 now).1 }]) ++
            runCalls (rl.allow c2 now).2 rest := by
        simp [runCalls]
      rw [hsplit]
      have hgoal := ih (rl.allow c2 now).2
        (pre ++ [{ clientIP := c2, now := now, allowed := (rl.allow c2 now).1 }]) now
      rw [hw, hl] at hgoal
      by_cases hc : c2 = c
      · subst hc
        cases hres : (rl.allow c2 now).1 with
        | false =>
          have hadm : admittedAt c2 (pre ++ [{ clientIP := c2, now := now, allowed := false }])
              = admittedAt c2 pre := by
            simp [admittedAt]
          rw [hres, hadm, allow_snd_of_false rl c2 now hres] at hgoal
          rw [allow_snd_of_false rl c2 now hres]
          exact hgoal (fun x hx => hinv x (by omega)) hchain.2 hgood t
        | true =>
          have hadm : admittedAt c2 (pre ++ [{ clientIP := c2, now := now, allowed := true }])
              = admittedAt c2 pre ++ [now] := by
            simp [admittedAt]
          have hlt : ((validRequests (now - rl.window) (rl.history c2)).length : Int)
              < rl.limit := by
            have h1 := allow_fst rl c2 now
            rw [hres] at h1
            exact of_decide_eq_true h1.symm
          have hvalid : (validRequests (now - rl.window) (rl.history c2)).length =
              ((admittedAt c2 pre).filter (fun a => decide (now - rl.window < a))).length := by
            rw [validRequests_eq_filter, hinv (now - rl.window) (by omega)]
          rw [hres, hadm, allow_history_self rl c2 now hres] at hgoal
          refine hgoal ?_ hchain.2 ?_ t
          · intro x hx
            rw [List.filter_append, List.filter_append,
              filter_after_validRequests _ _ _ hx, hinv x (by omega)]
          · intro u
            rw [countInWindow_append]
            by_cases hin : u - rl.window < now ∧ now ≤ u
            · have h1 := countInWindow_le_after rl.window u now (admittedAt c2 pre) hin.2
              have h2 : countInWindow rl.window u [now] = 1 := by
                simp [countInWindow, hin.1, hin.2]
              rw [h2]
              have h3 : (0 : Int) ≤ max rl.limit 0 := le_max_right _ _
              have h4 : rl.limit ≤ max rl.limit 0 := le_max_left _ _
              rw [← hvalid] at h1
              push_cast
              omega
            · have h2 : countInWindow rl.window u [now] = 0 := by
                simp only [countInWindow, List.filter_cons, List.filter_nil]
                by_cases ha : u - rl.window < now
                · have hb : ¬ now ≤ u := fun hb => hin ⟨ha, hb⟩
                  simp [ha, hb]
                · simp [ha]
              rw [h2]
              simpa using hgood u
      · have hadm : admittedAt c
            (pre ++ [{ clientIP := c2, now := now, allowed := (rl.allow c2 now).1 }])
            = admittedAt c pre := by
          simp [admittedAt, hc]
        have hhist : (rl.allow c2 now).2.history c = rl.history c := by
          unfold RateLimiter.history
          rw [allow_history_other rl c2 c now hc]
        rw [hadm, hhist] at hgoal
        exact hgoal (fun x hx => hinv x (by omega)) hchain.2 hgood t

/-- C2. Sliding-window bound: from a freshly constructed limiter with limit `L`
and window `W`, for every sequence of `allow` and `cleanup` calls with
non-decreasing clock readings, every client `c` and every instant `t`, the
number of `allow(c)` calls that returned true with clock reading in the
half-open interval `(t - W, t]` is at most `max(L, 0)`. -/
theorem sliding_window_bound (L W : Int) (calls : List Call)
    (hmono : List.Chain' (· ≤ ·) (calls.map Call.now)) (c : String) (t : Int) :
    (countInWindow W t (admittedAt c (runCalls (NewRateLimiter L W) calls)) : Int)
      ≤ max L 0 := by
  cases calls with
  | nil => simp [runCalls, admittedAt, countInWindow]
  | cons call rest =>
    have hchain : List.Chain (· ≤ ·) call.now ((call :: rest).map Call.now) := by
      rw [List.map_cons] at hmono ⊢
      exact List.Chain.cons (le_refl _) hmono
    have h := runCalls_bound c (call :: rest) (NewRateLimiter L W) [] call.now
      (by intro x _; simp [NewRateLimiter, RateLimiter.history, admittedAt])
      hchain
      (by intro u; simp [admittedAt, countInWindow, NewRateLimiter])
      t
    simpa [NewRateLimiter] using h

/-- C2, in use: on `sampleCalls` client A is admitted at 0 and 1, rejected at 2
and admitted again at 11; the window ending at 1 holds two admissions. -/
theorem sliding_window_bound_witness :
    List.Chain' (· ≤ ·) (sampleCalls.map Call.now) ∧
    countInWindow 10 1 (admittedAt "A" (runCalls (NewRateLimiter 2 10) sampleCalls)) = 2 ∧
    (countInWindow 10 1 (admittedAt "A" (runCalls (NewRateLimiter 2 10) sampleCalls)) : Int)
      ≤ max 2 0 :=
  ⟨by simp [sampleCalls, Call.now], by decide,
    sliding_window_bound 2 10 sampleCalls (by simp [sampleCalls, Call.now]) "A" 1⟩

/-! ### The document store -/

theorem put_same (db : Table) (id : String) (row : Row) : (db.put id row) id = some row := by
  simp [Table.put]

theorem put_other (db : Table) (id k : String) (row : Row) (h : k ≠ id) :
    (db.put id row) k = db k := by
  simp [Table.put, h]

theorem UpdateDocumentStatus_ok (db : Table) (call : DbCall) (id : String)
    (status : DocumentStatus) (row : Row) (herr : call.err = none) (hrow : db id = some row) :
    UpdateDocumentStatus db call id status =
      (db.put id { row with status := status, updated_at := call.now }, none) := by
  simp [UpdateDocumentStatus, herr, hrow]

theorem UpdateDocumentSummary_ok (db : Table) (call : DbCall) (id summary : String)
    (row : Row) (herr : call.err = none) (hrow : db id = some row) :
    UpdateDocumentSummary db call id summary =
      (db.put id { row with summary := some summary, status := .StatusCompleted,
                            updated_at := call.now }, none) := by
  simp [UpdateDocumentSummary, herr, hrow]

theorem GetDocument_ok (db : Table) (id : String) (row : Row) (hrow : db id = some row) :
    GetDocument db none id = .ok (row.toDocument id) := by
  simp [GetDocument, hrow]

/-- A run whose store calls are executed and whose AI call returns `s`. -/
theorem handle_success (db : Table) (env : RunEnv) (id : String) (row : Row) (s : String)
    (hrow : db id = some row) (hset : env.setProcessing.err = none)
    (hget : env.getDocument = none) (hupd : env.updateSummary.err = none)
    (hai : env.generateSummary row.raw_text = .ok s) :
    HandleSummaryGeneration db (Task.forDocument id) env =
      { err := none,
        db := (db.put id { row with status := .StatusProcessing,
                                    updated_at := env.setProcessing.now }).put id
                { row with summary := some s, status := .StatusCompleted,
                           updated_at := env.updateSummary.now },
        trace := [db.put id { row with status := .StatusProcessing,
                                       updated_at := env.setProcessing.now },
                  (db.put id { row with status := .StatusProcessing,
                                        updated_at := env.setProcessing.now }).put id
                    { row with summary := some s, status := .StatusCompleted,
                               updated_at := env.updateSummary.now }] } := by
  unfold HandleSummaryGeneration
  simp only [Task.forDocument]
  rw [UpdateDocumentStatus_ok db _ id _ row hset hrow]
  simp only [hget]
  rw [GetDocument_ok _ id _ (put_same _ _ _)]
  simp only [Row.toDocument, hai]
  rw [UpdateDocumentSummary_ok _ _ id s _ hupd (put_same _ _ _)]

/-- A run whose store calls are executed and whose AI call fails with `e`. -/
theorem handle_ai_failure (db : Table) (env : RunEnv) (id : String) (row : Row) (e : GoError)
    (hrow : db id = some row) (hset : env.setProcessing.err = none)
    (hget : env.getDocument = none) (hfail : env.setFailed.err = none)
    (hai : env.generateSummary row.raw_text = .error e) :
    HandleSummaryGeneration db (Task.forDocument id) env =
      { err := some (.wrapf "failed to generate summary: %w" e),
        db := (db.put id { row with status := .StatusProcessing,
                                    updated_at := env.setProcessing.now }).put id
                { row with status := .StatusFailed, updated_at := env.setFailed.now },
        trace := [db.put id { row with status := .StatusProcessing,
                                       updated_at := env.setProcessing.now },
                  (db.put id { row with status := .StatusProcessing,
                                        updated_at := env.setProcessing.now }).put id
                    { row with status := .StatusFailed, updated_at := env.setFailed.now }] } := by
  unfold HandleSummaryGeneration
  simp only [Task.forDocument]
  rw [UpdateDocumentStatus_ok db _ id _ row hset hrow]
  simp only [hget]
  rw [GetDocument_ok _ id _ (put_same _ _ _)]
  simp only [Row.toDocument, hai]
  rw [UpdateDocumentStatus_ok _ _ id _ _ hfail (put_same _ _ _)]

theorem task_eq_forDocument (t : Task) (id : String)
    (h : t.payload = .ok { DocumentID := id }) : t = Task.forDocument id := by
  cases t
  simp only [Task.forDocument] at h ⊢
  rw [h]

/-! ### Outcome of one run of the handler -/

/-- C6. For every task whose payload names an existing document and for which
the store calls are executed: when `GenerateSummary` returns `s` the handler
returns nil and the document ends with status COMPLETED and summary `s`, both
written by the single `UpdateDocumentSummary` call that ends the run; when
`GenerateSummary` returns an error `e` the handler returns an error wrapping
`e` and the document ends with status FAILED. -/
theorem handler_outcome (db : Table) (t : Task) (env : RunEnv) (id : String) (row : Row)
    (hpayload : t.payload = .ok { DocumentID := id }) (hrow : db id = some row)
    (hset : env.setProcessing.err = none) (hget : env.getDocument = none)
    (hfail : env.setFailed.err = none) (hupd : env.updateSummary.err = none) :
    (∀ s, env.generateSummary row.raw_text = .ok s →
      (HandleSummaryGeneration db t env).err = none ∧
      (HandleSummaryGeneration db t env).db id =
        some { row with summary := some s, status := .StatusCompleted,
                        updated_at := env.updateSummary.now } ∧
      (HandleSummaryGeneration db t env).db =
        (UpdateDocumentSummary
          (UpdateDocumentStatus db env.setProcessing id .StatusProcessing).1
          env.updateSummary id s).1 ∧
      (HandleSummaryGeneration db t env).trace =
        [(UpdateDocumentStatus db env.setProcessing id .StatusProcessing).1,
          (HandleSummaryGeneration db t env).db] ∧
      (UpdateDocumentStatus db env.setProcessing id .StatusProcessing).1 id =
        some { row with status := .StatusProcessing, updated_at := env.setProcessing.now }) ∧
    (∀ e, env.generateSummary row.raw_text = .error e →
      (HandleSummaryGeneration db t env).err =
        some (.wrapf "failed to generate summary: %w" e) ∧
      (HandleSummaryGeneration db t env).err.bind GoError.unwrap = some e ∧
      (HandleSummaryGeneration db t env).db id =
        some { row with status := .StatusFailed, updated_at := env.setFailed.now }) := by
  rw [task_eq_forDocument t id hpayload]
  constructor
  · intro s hai
    rw [handle_success db env id row s hrow hset hget hupd hai,
      UpdateDocumentStatus_ok db _ id _ row hset hrow,
      UpdateDocumentSummary_ok _ _ id s _ hupd (put_same _ _ _)]
    exact ⟨rfl, put_same _ _ _, rfl, rfl, put_same _ _ _⟩
  · intro e hai
    rw [handle_ai_failure db env id row e hrow hset hget hfail hai]
    exact ⟨rfl, rfl, put_same _ _ _⟩

/-- C6, in use: the first run for the freshly created doc-1 with an AI client
that answers. -/
theorem handler_outcome_witness :
    (HandleSummaryGeneration createdTable (Task.forDocument "doc-1")
      (RunEnv.reliable 10 (fun _ => .ok "a sale deed"))).err = none ∧
    (HandleSummaryGeneration createdTable (Task.forDocument "doc-1")
      (RunEnv.reliable 10 (fun _ => .ok "a sale deed"))).db "doc-1" =
      some { createdRow with summary := some "a sale deed", status := .StatusCompleted,
                             updated_at := 10 } :=
  have h := (handler_outcome createdTable (Task.forDocument "doc-1")
    (RunEnv.reliable 10 (fun _ => .ok "a sale deed")) "doc-1" createdRow rfl (by decide)
    rfl rfl rfl rfl).1 "a sale deed" rfl
  ⟨h.1, h.2.1⟩

/-! ### Redelivery -/

/-- C9, amended. Redelivery idempotence: for every store state containing
document `id`, when the store calls of both runs are executed and the AI client
returns the same summary `s` on both runs, running the handler twice in
succession leaves the document with the same status (COMPLETED), summary (`s`),
filename, raw text, size, content type and creation time as running it once,
only `updated_at` being written again, and leaves every other document as it
was. -/
theorem handler_redelivery_idempotent (db : Table) (env1 env2 : RunEnv) (id : String)
    (row : Row) (s : String) (hrow : db id = some row)
    (hdb1 : env1.setProcessing.err = none ∧ env1.getDocument = none ∧
      env1.updateSummary.err = none)
    (hdb2 : env2.setProcessing.err = none ∧ env2.getDocument = none ∧
      env2.updateSummary.err = none)
    (hai1 : env1.generateSummary row.raw_text = .ok s)
    (hai2 : env2.generateSummary row.raw_text = .ok s) :
    (HandleSummaryGeneration db (Task.forDocument id) env1).err = none ∧
    (HandleSummaryGeneration (HandleSummaryGeneration db (Task.forDocument id) env1).db
      (Task.forDocument id) env2).err = none ∧
    (HandleSummaryGeneration db (Task.forDocument id) env1).db id =
      some { row with summary := some s, status := .StatusCompleted,
                      updated_at := env1.updateSummary.now } ∧
    (HandleSummaryGeneration (HandleSummaryGeneration db (Task.forDocument id) env1).db
      (Task.forDocument id) env2).db id =
      some { row with summary := some s, status := .StatusCompleted,
                      updated_at := env2.updateSummary.now } ∧
    (∀ k, k ≠ id →
      (HandleSummaryGeneration db (Task.forDocument id) env1).db k = db k ∧
      (HandleSummaryGeneration (HandleSummaryGeneration db (Task.forDocument id) env1).db
        (Task.forDocument id) env2).db k = db k) := by
  have h1 := handle_success db env1 id row s hrow hdb1.1 hdb1.2.1 hdb1.2.2 hai1
  have hrow1 : (HandleSummaryGeneration db (Task.forDocument id) env1).db id =
      some { row with summary := some s, status := .StatusCompleted,
                      updated_at := env1.updateSummary.now } := by
    rw [h1]
    exact put_same _ _ _
  have h2 := handle_success (HandleSummaryGeneration db (Task.forDocument id) env1).db env2 id
    _ s hrow1 hdb2.1 hdb2.2.1 hdb2.2.2 hai2
  refine ⟨by rw [h1], by rw [h2], hrow1, by rw [h2]; exact put_same _ _ _, ?_⟩
  intro k hk
  have hk1 : (HandleSummaryGeneration db (Task.forDocument id) env1).db k = db k := by
    rw [h1]
    simp [Table.put, hk]
  refine ⟨hk1, ?_⟩
  rw [h2]
  simp only [Table.put, hk, if_false]
  exact hk1

/-- C9, in use: the summary task of doc-1 delivered twice, the AI client
answering the same both times. -/
theorem handler_redelivery_idempotent_witness :
    completedTable "doc-1" =
      some { createdRow with summary := some "a sale deed", status := .StatusCompleted,
                             updated_at := 10 } ∧
    (HandleSummaryGeneration completedTable (Task.forDocument "doc-1")
      (RunEnv.reliable 40 (fun _ => .ok "a sale deed"))).db "doc-1" =
      some { createdRow with summary := some "a sale deed", status := .StatusCompleted,
                             updated_at := 40 } :=
  have h := handler_redelivery_idempotent createdTable
    (RunEnv.reliable 10 (fun _ => .ok "a sale deed"))
    (RunEnv.reliable 40 (fun _ => .ok "a sale deed")) "doc-1" createdRow "a sale deed"
    (by decide) ⟨rfl, rfl, rfl⟩ ⟨rfl, rfl, rfl⟩ rfl rfl
  ⟨h.2.2.1, h.2.2.2.1⟩

/-- C9 as stated fails: doc-1 is COMPLETED with summary `a sale deed` after one
run; the task is delivered again, the AI client returns the same summary and
the database refuses the final `UPDATE`.  The second run returns an error and
leaves doc-1 PROCESSING, not COMPLETED as one run did. -/
theorem handler_redelivery_counterexample :
    completedTable "doc-1" = some completedRow ∧
    completedRow.status = .StatusCompleted ∧
    (match persistDown.generateSummary "sale deed text" with
      | .ok summary => summary = "a sale deed"
      | .error _ => False) ∧
    (HandleSummaryGeneration completedTable (Task.forDocument "doc-1") persistDown).err ≠
      none ∧
    (HandleSummaryGeneration completedTable (Task.forDocument "doc-1") persistDown).db
      "doc-1" =
      some { completedRow with status := .StatusProcessing, updated_at := 30 } := by
  refine ⟨by decide, by decide, rfl, by decide, by decide⟩

/-! ### Failure after PROCESSING -/

/-- C10, the failing run: doc-1 is PENDING, the AI client answers and the final
`UPDATE` is refused; the handler returns an error and doc-1 is left PROCESSING,
not FAILED. -/
theorem handler_persist_failure_leaves_processing :
    (HandleSummaryGeneration createdTable (Task.forDocument "doc-1") persistDown).err =
      some (.wrapf "failed to update document summary: %w"
        (.wrapf "failed to update document summary: %w"
          (.errorf "connection reset by peer"))) ∧
    ((HandleSummaryGeneration createdTable (Task.forDocument "doc-1") persistDown).trace.map
      (fun d => (d "doc-1").map Row.status)) =
      [some .StatusProcessing, some .StatusProcessing] ∧
    ((HandleSummaryGeneration createdTable (Task.forDocument "doc-1") persistDown).db
      "doc-1").map Row.status = some .StatusProcessing := by
  refine ⟨by decide, by decide, by decide⟩

/-! ### What the store calls of a run can change -/

theorem status_update_effect (db : Table) (call : DbCall) (k : String)
    (st : DocumentStatus) (id : String) :
    (UpdateDocumentStatus db call k st).1 id = db id ∨
    (id = k ∧ ∃ row, db id = some row ∧
      (UpdateDocumentStatus db call k st).1 id =
        some { row with status := st, updated_at := call.now }) := by
  unfold UpdateDocumentStatus
  cases call.err with
  | some e => exact Or.inl rfl
  | none =>
    cases hk : db k with
    | none => exact Or.inl rfl
    | some row =>
      by_cases h : id = k
      · subst h
        exact Or.inr ⟨rfl, row, hk, put_same _ _ _⟩
      · exact Or.inl (put_other _ _ _ _ h)

theorem summary_update_effect (db : Table) (call : DbCall) (k s : String) (id : String) :
    (UpdateDocumentSummary db call k s).1 id = db id ∨
    (id = k ∧ ∃ row, db id = some row ∧
      (UpdateDocumentSummary db call k s).1 id =
        some { row with summary := some s, status := .StatusCompleted,
                        updated_at := call.now }) := by
  unfold UpdateDocumentSummary
  cases call.err with
  | some e => exact Or.inl rfl
  | none =>
    cases hk : db k with
    | none => exact Or.inl rfl
    | some row =>
      by_cases h : id = k
      · subst h
        exact Or.inr ⟨rfl, row, hk, put_same _ _ _⟩
      · exact Or.inl (put_other _ _ _ _ h)

/-- Every state a run passes through comes from the first status update alone,
or from it followed by the update to FAILED or by the summary update. -/
theorem handle_trace_cases (db : Table) (t : Task) (env : RunEnv) (db2 : Table)
    (hmem : db2 ∈ (HandleSummaryGeneration db t env).trace) :
    ∃ id, t.payload = .ok { DocumentID := id } ∧
      (db2 = (UpdateDocumentStatus db env.setProcessing id .StatusProcessing).1 ∨
       db2 = (UpdateDocumentStatus
          (UpdateDocumentStatus db env.setProcessing id .StatusProcessing).1
          env.setFailed id .StatusFailed).1 ∨
       ∃ s, db2 = (UpdateDocumentSummary
          (UpdateDocumentStatus db env.setProcessing id .StatusProcessing).1
          env.updateSummary id s).1) := by
  unfold HandleSummaryGeneration at hmem
  cases hp : t.payload with
  | error e =>
    rw [hp] at hmem
    simp at hmem
  | ok payload =>
    rw [hp] at hmem
    refine ⟨payload.DocumentID, rfl, ?_⟩
    simp only at hmem
    split at hmem
    · simp only [List.mem_singleton] at hmem
      exact Or.inl hmem
    · split at hmem
      · simp only [List.mem_cons, List.mem_singleton, List.not_mem_nil, or_false] at hmem
        rcases hmem with h | h
        · exact Or.inl h
        · exact Or.inr (Or.inl h)
      · split at hmem
        · simp only [List.mem_cons, List.mem_singleton, List.not_mem_nil, or_false] at hmem
          rcases hmem with h | h
          · exact Or.inl h
          · exact Or.inr (Or.inl h)
        · rename_i summary _
          split at hmem
          · simp only [List.mem_cons, List.mem_singleton, List.not_mem_nil, or_false] at hmem
            rcases hmem with h | h
            · exact Or.inl h
            · exact Or.inr (Or.inr ⟨summary, h⟩)
          · simp only [List.mem_cons, List.mem_singleton, List.not_mem_nil, or_false] at hmem
            rcases hmem with h | h
            · exact Or.inl h
            · exact Or.inr (Or.inr ⟨summary, h⟩)

/-! ### Summary and status across runs -/

/-- The first state of a run for an existing document whose first store call
is executed: the document is PROCESSING. -/
theorem handle_trace_head (db : Table) (env : RunEnv) (id : String) (row : Row)
    (hrow : db id = some row) (hset : env.setProcessing.err = none) :
    (HandleSummaryGeneration db (Task.forDocument id) env).trace.head? =
      some (db.put id { row with status := .StatusProcessing,
                                 updated_at := env.setProcessing.now }) := by
  unfold HandleSummaryGeneration
  simp only [Task.forDocument]
  rw [UpdateDocumentStatus_ok db _ id _ row hset hrow]
  simp only
  split
  · rfl
  · split
    · rfl
    · split <;> rfl

/-- C7, amended. In every store state reachable from `CreateDocument` by runs
of `HandleSummaryGeneration` and the store calls they make, a document whose
status is COMPLETED has a summary and a document whose status is PENDING has
none; a PROCESSING or FAILED document may carry the summary of an earlier
completed run, since no store call removes a summary. -/
theorem reachable_summary_status (db : Table) (hreach : Reachable db) (id : String)
    (row : Row) (hrow : db id = some row) :
    (row.status = .StatusCompleted → row.summary.isSome = true) ∧
    (row.status = .StatusPending → row.summary = none) := by
  induction hreach generalizing id row with
  | empty => simp [emptyTable] at hrow
  | create db0 call k filename rawText contentType fileSize _ ih =>
    unfold CreateDocument at hrow
    cases hc : call.err with
    | some e =>
      rw [hc] at hrow
      exact ih id row hrow
    | none =>
      rw [hc] at hrow
      cases hk : db0 k with
      | some r0 =>
        rw [hk] at hrow
        exact ih id row hrow
      | none =>
        rw [hk] at hrow
        simp only at hrow
        by_cases h : id = k
        · subst h
          rw [put_same] at hrow
          cases hrow
          simp
        · rw [put_other _ _ _ _ h] at hrow
          exact ih id row hrow
  | handle db0 db2 t env _ hmem ih =>
    obtain ⟨k, _, hcase⟩ := handle_trace_cases db0 t env db2 hmem
    have hmid : ∀ r, (UpdateDocumentStatus db0 env.setProcessing k .StatusProcessing).1 id
        = some r →
        (r.status = .StatusCompleted → r.summary.isSome = true) ∧
        (r.status = .StatusPending → r.summary = none) := by
      intro r hr
      rcases status_update_effect db0 env.setProcessing k .StatusProcessing id with h | h
      · rw [h] at hr
        exact ih id r hr
      · obtain ⟨_, r0, _, h2⟩ := h
        rw [h2] at hr
        cases hr
        simp
    rcases hcase with h | h | ⟨s, h⟩
    · rw [h] at hrow
      exact hmid row hrow
    · rw [h] at hrow
      rcases status_update_effect
        (UpdateDocumentStatus db0 env.setProcessing k .StatusProcessing).1
        env.setFailed k .StatusFailed id with h1 | h1
      · rw [h1] at hrow
        exact hmid row hrow
      · obtain ⟨_, r0, _, h2⟩ := h1
        rw [h2] at hrow
        cases hrow
        simp
    · rw [h] at hrow
      rcases summary_update_effect
        (UpdateDocumentStatus db0 env.setProcessing k .StatusProcessing).1
        env.updateSummary k s id with h1 | h1
      · rw [h1] at hrow
        exact hmid row hrow
      · obtain ⟨_, r0, _, h2⟩ := h1
        rw [h2] at hrow
        cases hrow
        simp

theorem createdTable_reachable : Reachable createdTable :=
  Reachable.create emptyTable _ _ _ _ _ _ Reachable.empty

theorem completedTable_reachable : Reachable completedTable := by
  refine Reachable.handle createdTable completedTable (Task.forDocument "doc-1")
    (RunEnv.reliable 10 (fun _ => .ok "a sale deed")) createdTable_reachable ?_
  unfold completedTable
  rw [handle_success createdTable _ "doc-1" createdRow "a sale deed" (by decide) rfl rfl rfl rfl]
  simp

/-- C7, in use: doc-1 after its first successful run is COMPLETED and has a
summary. -/
theorem reachable_summary_status_witness :
    Reachable completedTable ∧
    completedTable "doc-1" =
      some { createdRow with summary := some "a sale deed", status := .StatusCompleted,
                             updated_at := 10 } ∧
    ({ createdRow with summary := some "a sale deed", status := .StatusCompleted,
                       updated_at := 10 } : Row).summary.isSome = true :=
  ⟨completedTable_reachable, by decide,
    (reachable_summary_status completedTable completedTable_reachable "doc-1"
      { createdRow with summary := some "a sale deed", status := .StatusCompleted,
                        updated_at := 10 } (by decide)).1 rfl⟩

/-- C7 as stated fails: create doc-1, run its summary task once with success,
then deliver the task again with the AI client failing. The store reached has
doc-1 with status FAILED and its summary still present. -/
theorem summary_without_completed_counterexample :
    Reachable failedAfterCompletedTable ∧
    failedAfterCompletedTable "doc-1" =
      some { createdRow with summary := some "a sale deed", status := .StatusFailed,
                             updated_at := 20 } ∧
    ¬ (∀ row, failedAfterCompletedTable "doc-1" = some row →
        (row.summary.isSome = true ↔ row.status = .StatusCompleted)) := by
  have hrow : failedAfterCompletedTable "doc-1" =
      some { createdRow with summary := some "a sale deed", status := .StatusFailed,
                             updated_at := 20 } := by decide
  refine ⟨?_, hrow, ?_⟩
  · refine Reachable.handle completedTable failedAfterCompletedTable (Task.forDocument "doc-1")
      aiDown completedTable_reachable ?_
    unfold failedAfterCompletedTable
    rw [handle_ai_failure completedTable aiDown "doc-1"
      { createdRow with summary := some "a sale deed", status := .StatusCompleted,
                        updated_at := 10 }
      (.errorf "context deadline exceeded") (by decide) rfl rfl rfl rfl]
    simp
  · intro h
    have h2 := (h _ hrow).mp rfl
    exact absurd h2 (by decide)

/-! ### Status steps of a run -/

/-- What one status update leaves of a row that was in the table: the row
itself, or, when the update is the one of this row, the row with the new
status. -/
theorem status_update_row (db : Table) (call : DbCall) (k : String) (st : DocumentStatus)
    (id : String) (row : Row) (hrow : db id = some row) :
    ∃ r, (UpdateDocumentStatus db call k st).1 id = some r ∧
      (r = row ∨ (id = k ∧ r = { row with status := st, updated_at := call.now })) := by
  rcases status_update_effect db call k st id with h | ⟨hid, r0, hr0, h⟩
  · exact ⟨row, by rw [h, hrow], Or.inl rfl⟩
  · rw [hrow] at hr0
    cases hr0
    exact ⟨_, h, Or.inr ⟨hid, rfl⟩⟩

theorem summary_update_row (db : Table) (call : DbCall) (k s : String)
    (id : String) (row : Row) (hrow : db id = some row) :
    ∃ r, (UpdateDocumentSummary db call k s).1 id = some r ∧
      (r = row ∨ (id = k ∧ r = { row with summary := some s, status := .StatusCompleted,
                                          updated_at := call.now })) := by
  rcases summary_update_effect db call k s id with h | ⟨hid, r0, hr0, h⟩
  · exact ⟨row, by rw [h, hrow], Or.inl rfl⟩
  · rw [hrow] at hr0
    cases hr0
    exact ⟨_, h, Or.inr ⟨hid, rfl⟩⟩

/-- No store call of a run adds a row. -/
theorem handle_trace_absent (db : Table) (t : Task) (env : RunEnv) (db2 : Table)
    (hmem : db2 ∈ (HandleSummaryGeneration db t env).trace) (id : String)
    (hnone : db id = none) : db2 id = none := by
  obtain ⟨k, _, hcase⟩ := handle_trace_cases db t env db2 hmem
  have hmid : (UpdateDocumentStatus db env.setProcessing k .StatusProcessing).1 id = none := by
    rcases status_update_effect db env.setProcessing k .StatusProcessing id with
      h | ⟨_, r0, hr0, _⟩
    · rw [h, hnone]
    · rw [hnone] at hr0
      cases hr0
  rcases hcase with h | h | ⟨s, h⟩
  · rw [h, hmid]
  · rw [h]
    rcases status_update_effect
      (UpdateDocumentStatus db env.setProcessing k .StatusProcessing).1
      env.setFailed k .StatusFailed id with h1 | ⟨_, r0, hr0, _⟩
    · rw [h1, hmid]
    · rw [hmid] at hr0
      cases hr0
  · rw [h]
    rcases summary_update_effect
      (UpdateDocumentStatus db env.setProcessing k .StatusProcessing).1
      env.updateSummary k s id with h1 | ⟨_, r0, hr0, _⟩
    · rw [h1, hmid]
    · rw [hmid] at hr0
      cases hr0

/-- C8, amended. No run of `HandleSummaryGeneration` changes a document whose
status is COMPLETED or FAILED to PENDING, and a run neither changes nor creates
any document other than the one named in its payload, whatever the status of
that other document.  The named document, whatever its current status
(COMPLETED and FAILED included), is set to PROCESSING by the first store call
of every run in which that call is executed, and in every later state of that
run its status is PROCESSING, FAILED or COMPLETED. -/
theorem handler_terminal_steps (db : Table) (t : Task) (env : RunEnv) (id : String) :
    (∀ row, db id = some row →
      ∀ db2 ∈ (HandleSummaryGeneration db t env).trace,
        ∃ row2, db2 id = some row2 ∧
          (t.payload ≠ .ok { DocumentID := id } → row2 = row) ∧
          (row.status ≠ .StatusPending → row2.status ≠ .StatusPending) ∧
          (row.status.terminal = true → row2.status ≠ .StatusPending) ∧
          (t.payload = .ok { DocumentID := id } → env.setProcessing.err = none →
            row2.status = .StatusProcessing ∨ row2.status = .StatusFailed ∨
              row2.status = .StatusCompleted)) ∧
    (db id = none → ∀ db2 ∈ (HandleSummaryGeneration db t env).trace, db2 id = none) ∧
    (∀ row, db id = some row → t.payload = .ok { DocumentID := id } →
      env.setProcessing.err = none →
      ∃ mid rest, (HandleSummaryGeneration db t env).trace = mid :: rest ∧
        (mid id).map Row.status = some .StatusProcessing) := by
  refine ⟨?_, ?_, ?_⟩
  · intro row hrow db2 hmem
    obtain ⟨k, hk, hcase⟩ := handle_trace_cases db t env db2 hmem
    have hpay : t.payload = .ok { DocumentID := id } → id = k := by
      intro h
      rw [hk] at h
      injection h with h1
      injection h1 with h2
      exact h2.symm
    have hpay2 : t.payload ≠ .ok { DocumentID := id } → id ≠ k := by
      intro hne hid
      apply hne
      rw [hk, hid]
    -- the row after the first store call
    have hmid : ∃ r, (UpdateDocumentStatus db env.setProcessing k .StatusProcessing).1 id
        = some r ∧ (id ≠ k → r = row) ∧ (r = row ∨ r.status = .StatusProcessing) ∧
        (id = k → env.setProcessing.err = none → r.status = .StatusProcessing) := by
      obtain ⟨r, hr, hcases⟩ := status_update_row db env.setProcessing k .StatusProcessing
        id row hrow
      refine ⟨r, hr, ?_, ?_, ?_⟩
      · intro hne
        rcases hcases with h | ⟨hid, _⟩
        · exact h
        · exact absurd hid hne
      · rcases hcases with h | ⟨_, h⟩
        · exact Or.inl h
        · exact Or.inr (by rw [h])
      · intro hid herr
        subst hid
        rw [UpdateDocumentStatus_ok db _ id _ row herr hrow] at hr
        simp only [put_same, Option.some.injEq] at hr
        rw [← hr]
    obtain ⟨r, hr, hrk, hrs, hrp⟩ := hmid
    have hgoal : ∀ r2 : Row, (r2 = r ∨ (id = k ∧ (r2.status = .StatusFailed ∨
        r2.status = .StatusCompleted))) →
        (t.payload ≠ .ok { DocumentID := id } → r2 = row) ∧
        (row.status ≠ .StatusPending → r2.status ≠ .StatusPending) ∧
        (row.status.terminal = true → r2.status ≠ .StatusPending) ∧
        (t.payload = .ok { DocumentID := id } → env.setProcessing.err = none →
          r2.status = .StatusProcessing ∨ r2.status = .StatusFailed ∨
            r2.status = .StatusCompleted) := by
      intro r2 h2
      have hnp : row.status ≠ .StatusPending → r2.status ≠ .StatusPending := by
        intro hrow0
        rcases h2 with h | ⟨_, h | h⟩
        · rw [h]
          rcases hrs with h3 | h3
          · rw [h3]
            exact hrow0
          · rw [h3]
            decide
        · rw [h]
          decide
        · rw [h]
          decide
      refine ⟨?_, hnp, ?_, ?_⟩
      · intro hne
        have hidk := hpay2 hne
        rcases h2 with h | ⟨hid, _⟩
        · rw [h]
          exact hrk hidk
        · exact absurd hid hidk
      · intro hterm
        apply hnp
        intro h
        rw [h] at hterm
        exact absurd hterm (by decide)
      · intro hp herr
        rcases h2 with h | ⟨_, h | h⟩
        · rw [h]
          exact Or.inl (hrp (hpay hp) herr)
        · exact Or.inr (Or.inl h)
        · exact Or.inr (Or.inr h)
    rcases hcase with h | h | ⟨s, h⟩
    · exact ⟨r, by rw [h, hr], hgoal r (Or.inl rfl)⟩
    · obtain ⟨r2, hr2, hc2⟩ := status_update_row
        (UpdateDocumentStatus db env.setProcessing k .StatusProcessing).1
        env.setFailed k .StatusFailed id r hr
      refine ⟨r2, by rw [h, hr2], hgoal r2 ?_⟩
      rcases hc2 with h3 | ⟨hid, h3⟩
      · exact Or.inl h3
      · exact Or.inr ⟨hid, Or.inl (by rw [h3])⟩
    · obtain ⟨r2, hr2, hc2⟩ := summary_update_row
        (UpdateDocumentStatus db env.setProcessing k .StatusProcessing).1
        env.updateSummary k s id r hr
      refine ⟨r2, by rw [h, hr2], hgoal r2 ?_⟩
      rcases hc2 with h3 | ⟨hid, h3⟩
      · exact Or.inl h3
      · exact Or.inr ⟨hid, Or.inr (by rw [h3])⟩
  · intro hnone db2 hmem
    exact handle_trace_absent db t env db2 hmem id hnone
  · intro row hrow hp hset
    rw [task_eq_forDocument t id hp]
    have hhead := handle_trace_head db env id row hrow hset
    cases htr : (HandleSummaryGeneration db (Task.forDocument id) env).trace with
    | nil =>
      rw [htr] at hhead
      simp at hhead
    | cons mid rest =>
      rw [htr] at hhead
      simp only [List.head?_cons, Option.some.injEq] at hhead
      refine ⟨mid, rest, rfl, ?_⟩
      rw [hhead, put_same]
      rfl

/-- C8, in use: the task of the COMPLETED doc-1 delivered again with the AI
client failing; the first state of the run has doc-1 PROCESSING, never
PENDING. -/
theorem handler_terminal_steps_witness :
    (completedTable "doc-1").map Row.status = some .StatusCompleted ∧
    ∃ mid rest,
      (HandleSummaryGeneration completedTable (Task.forDocument "doc-1") aiDown).trace =
        mid :: rest ∧
      (mid "doc-1").map Row.status = some .StatusProcessing :=
  ⟨by decide,
    (handler_terminal_steps completedTable (Task.forDocument "doc-1") aiDown "doc-1").2.2
      completedRow (by decide) rfl rfl⟩

/-- C8 as stated fails: doc-1 is COMPLETED when its task is delivered again
with an AI client that answers; the first store call of the run sets it to
PROCESSING before the last sets it back to COMPLETED. -/
theorem terminal_to_processing_counterexample :
    (completedTable "doc-1").map Row.status = some .StatusCompleted ∧
    (HandleSummaryGeneration completedTable (Task.forDocument "doc-1")
      (RunEnv.reliable 40 (fun _ => .ok "a sale deed"))).trace.map
        (fun d => (d "doc-1").map Row.status) =
      [some .StatusProcessing, some .StatusCompleted] := by
  refine ⟨by decide, by decide⟩

/-! ### The retry loop of GenerateSummary -/

theorem attemptError_error (err : GoError) : attemptError (.error err) = some err := rfl

theorem waits_append (xs ys : List SummaryEvent) : waits (xs ++ ys) = waits xs ++ waits ys := by
  induction xs with
  | nil => rfl
  | cons e xs ih =>
    cases e with
    | wait d => simp [waits, ih]
    | request k => simp [waits, ih]

theorem requestCount_append (xs ys : List SummaryEvent) :
    requestCount (xs ++ ys) = requestCount xs + requestCount ys := by
  simp [requestCount]

theorem requestCount_attemptEvents (k : Nat) : requestCount (attemptEvents k) = 1 := by
  unfold attemptEvents
  by_cases h : k > 0
  · simp [h, requestCount]
  · simp [h, requestCount]

theorem requestCount_eventsFrom (n : Nat) : ∀ attempt, requestCount (eventsFrom attempt n) = n := by
  induction n with
  | zero => intro _; rfl
  | succ n ih =>
    intro attempt
    rw [eventsFrom, requestCount_append, requestCount_attemptEvents, ih]
    omega

theorem waits_attemptEvents_pos (attempt : Nat) (hpos : 0 < attempt) :
    waits (attemptEvents attempt) = [backoff attempt] := by
  unfold attemptEvents
  rw [if_pos hpos]
  rfl

theorem waits_eventsFrom_pos (n : Nat) :
    ∀ attempt, 0 < attempt →
      waits (eventsFrom attempt n) = (List.range n).map (fun i => backoff (attempt + i)) := by
  induction n with
  | zero => intro _ _; rfl
  | succ n ih =>
    intro attempt hpos
    have hmap : List.map (fun i => backoff (attempt + 1 + i)) (List.range n) =
        List.map ((fun i => backoff (attempt + i)) ∘ Nat.succ) (List.range n) := by
      apply List.map_congr_left
      intro i _
      simp only [Function.comp, Nat.succ_eq_add_one]
      rw [Nat.add_assoc, Nat.add_comm 1 i]
    rw [eventsFrom, waits_append, ih (attempt + 1) (by omega), List.range_succ_eq_map,
      waits_attemptEvents_pos attempt hpos, List.map_cons, List.map_map, hmap, Nat.add_zero,
      List.singleton_append]

theorem attemptEvents_pos (attempt : Nat) (hpos : 0 < attempt) :
    attemptEvents attempt = [.wait (backoff attempt), .request attempt] := by
  unfold attemptEvents
  rw [if_pos hpos]
  rfl

theorem eventsFrom_pos_eq (n : Nat) :
    ∀ attempt, 0 < attempt →
      eventsFrom attempt n =
        (List.range n).flatMap
          (fun i => [SummaryEvent.wait (backoff (attempt + i)), .request (attempt + i)]) := by
  induction n with
  | zero => intro _ _; rfl
  | succ n ih =>
    intro attempt hpos
    have hmap : List.flatMap (List.range n)
          (fun i => [SummaryEvent.wait (backoff (attempt + 1 + i)), .request (attempt + 1 + i)]) =
        List.flatMap (List.range n)
          (fun i => [SummaryEvent.wait (backoff (attempt + (i + 1))),
            .request (attempt + (i + 1))]) := by
      apply List.flatMap_congr
      intro i _
      rw [Nat.add_assoc, Nat.add_comm 1 i]
    rw [eventsFrom, ih (attempt + 1) (by omega), List.range_succ_eq_map,
      attemptEvents_pos attempt hpos, List.flatMap_cons, List.flatMap_map, hmap, Nat.add_zero]

theorem eventsFrom_zero (n : Nat) :
    eventsFrom 0 (n + 1) = SummaryEvent.request 0 :: eventsFrom 1 n := by
  simp [eventsFrom, attemptEvents]

theorem eventsFrom_getLast (n : Nat) :
    ∀ attempt, (eventsFrom attempt (n + 1)).getLast? = some (.request (attempt + n)) := by
  induction n with
  | zero =>
    intro attempt
    simp [eventsFrom, attemptEvents]
  | succ n ih =>
    intro attempt
    rw [eventsFrom]
    have h := ih (attempt + 1)
    have hne : eventsFrom (attempt + 1) (n + 1) ≠ [] := by
      intro hnil
      rw [hnil] at h
      simp at h
    rw [List.getLast?_append_of_ne_nil _ hne, h]
    congr 2
    omega

/-- When every iteration left fails and no wait is cut short, the loop runs to
its end and reports the error of its last iteration. -/
theorem summaryLoop_all_fail (s : AIService) (env : SummaryEnv) (req : AIRequest) (n : Nat) :
    ∀ (attempt : Nat) (lastErr : Option GoError),
      (∀ k, attempt ≤ k → k < attempt + n →
        attemptError (makeRequest (env.exchange k req)) ≠ none ∧
        (0 < k → env.ctxDone k = none)) →
      summaryLoop s env req n attempt lastErr =
        { summary := "",
          err := some (exhaustedError s
            (if n = 0 then lastErr
              else attemptError (makeRequest (env.exchange (attempt + n - 1) req)))),
          events := eventsFrom attempt n } := by
  induction n with
  | zero => intro attempt lastErr _; rfl
  | succ n ih =>
    intro attempt lastErr h
    have h0 := h attempt (le_refl _) (by omega)
    have hctx : (if attempt > 0 then env.ctxDone attempt else none) = none := by
      by_cases hp : attempt > 0
      · rw [if_pos hp]
        exact h0.2 hp
      · rw [if_neg hp]
    have hrest : ∀ k, attempt + 1 ≤ k → k < attempt + 1 + n →
        attemptError (makeRequest (env.exchange k req)) ≠ none ∧
        (0 < k → env.ctxDone k = none) := fun k h1 h2 => h k (by omega) (by omega)
    have hidx : attempt + (n + 1) - 1 = attempt + n := by omega
    have hlast : ∀ e : Option GoError,
        attemptError (makeRequest (env.exchange attempt req)) = e →
        (if n = 0 then e
          else attemptError (makeRequest (env.exchange (attempt + 1 + n - 1) req))) =
        attemptError (makeRequest (env.exchange (attempt + n) req)) := by
      intro e he
      by_cases hn : n = 0
      · subst hn
        rw [if_pos rfl, ← he, Nat.add_zero]
      · rw [if_neg hn]
        have : attempt + 1 + n - 1 = attempt + n := by omega
        rw [this]
    rw [summaryLoop, hctx, if_neg (Nat.succ_ne_zero n), hidx]
    simp only
    cases hr : makeRequest (env.exchange attempt req) with
    | error err =>
      simp only
      rw [ih (attempt + 1) (some err) hrest, hlast (some err) (by rw [hr]; rfl)]
      rfl
    | ok response =>
      simp only
      cases hc : response.Choices with
      | nil =>
        simp only
        rw [ih (attempt + 1) _ hrest,
          hlast (some (.errorf "no response choices received"))
            (by rw [hr]; simp only [attemptError, hc])]
        rfl
      | cons choice rest =>
        exfalso
        apply h0.1
        rw [hr]
        simp [attemptError, hc]

/-- When the iterations before index `attempt + m` fail, no wait up to it is
cut short and the request with that index returns a choice, the loop returns
the trimmed content of that choice and stops there. -/
theorem summaryLoop_first_success (s : AIService) (env : SummaryEnv) (req : AIRequest)
    (response : AIResponse) (choice : Choice) (rest : List Choice) (m : Nat) :
    ∀ (n attempt : Nat) (lastErr : Option GoError),
      m < n →
      (∀ k, attempt ≤ k → k < attempt + m →
        attemptError (makeRequest (env.exchange k req)) ≠ none) →
      (∀ k, 0 < k → attempt ≤ k → k ≤ attempt + m → env.ctxDone k = none) →
      makeRequest (env.exchange (attempt + m) req) = .ok response →
      response.Choices = choice :: rest →
      summaryLoop s env req n attempt lastErr =
        { summary := TrimSpace choice.Message.Content, err := none,
          events := eventsFrom attempt (m + 1) } := by
  induction m with
  | zero =>
    intro n attempt lastErr hlt _ hctx hok hch
    obtain ⟨n, rfl⟩ : ∃ n0, n = n0 + 1 := ⟨n - 1, by omega⟩
    have hc0 : (if attempt > 0 then env.ctxDone attempt else none) = none := by
      by_cases hp : attempt > 0
      · rw [if_pos hp]
        exact hctx attempt hp (le_refl _) (by omega)
      · rw [if_neg hp]
    rw [Nat.add_zero] at hok
    rw [summaryLoop, hc0]
    simp only [hok, hch, eventsFrom, List.append_nil]
  | succ m ih =>
    intro n attempt lastErr hlt hfail hctx hok hch
    obtain ⟨n, rfl⟩ : ∃ n0, n = n0 + 1 := ⟨n - 1, by omega⟩
    have hc0 : (if attempt > 0 then env.ctxDone attempt else none) = none := by
      by_cases hp : attempt > 0
      · rw [if_pos hp]
        exact hctx attempt hp (le_refl _) (by omega)
      · rw [if_neg hp]
    have hf0 := hfail attempt (le_refl _) (by omega)
    have hok2 : makeRequest (env.exchange (attempt + 1 + m) req) = .ok response := by
      have : attempt + 1 + m = attempt + (m + 1) := by omega
      rw [this]
      exact hok
    have hrec := fun e => ih n (attempt + 1) e (by omega)
      (fun k h1 h2 => hfail k (by omega) (by omega))
      (fun k h0 h1 h2 => hctx k h0 (by omega) (by omega)) hok2 hch
    rw [summaryLoop, hc0]
    simp only
    cases hr : makeRequest (env.exchange attempt req) with
    | error err =>
      simp only
      rw [hrec]
      rfl
    | ok resp0 =>
      simp only
      cases hc : resp0.Choices with
      | nil =>
        simp only
        rw [hrec]
        rfl
      | cons c0 r0 =>
        exfalso
        apply hf0
        rw [hr]
        simp [attemptError, hc]

/-- The loop calls `makeRequest` at most once for each iteration left. -/
theorem summaryLoop_requestCount (s : AIService) (env : SummaryEnv) (req : AIRequest) (n : Nat) :
    ∀ (attempt : Nat) (lastErr : Option GoError),
      requestCount (summaryLoop s env req n attempt lastErr).events ≤ n := by
  induction n with
  | zero => intro _ _; simp [summaryLoop, requestCount]
  | succ n ih =>
    intro attempt lastErr
    rw [summaryLoop]
    split
    · simp [requestCount]
    · split
      · simp only [SummaryRun.after]
        rw [requestCount_append, requestCount_attemptEvents]
        have := ih (attempt + 1) (some ‹GoError›)
        omega
      · split
        · simp only [SummaryRun.after]
          rw [requestCount_append, requestCount_attemptEvents]
          have := ih (attempt + 1) (some (.errorf "no response choices received"))
          omega
        · simp only
          rw [requestCount_attemptEvents]
          omega

/-- The sum of the first `n` squares, six times over. -/
theorem sum_squares_six (n : Nat) :
    6 * ((List.range n).map (fun k => (k + 1) * (k + 1))).sum = n * (n + 1) * (2 * n + 1) := by
  induction n with
  | zero => rfl
  | succ n ih =>
    rw [List.sum_range_succ, Nat.mul_add, ih]
    ring

/-- The product computed by `backoff` is inside `int64` for every attempt index
up to 96038, far beyond what a call can reach. -/
theorem backoff_fits_int64 (attempt : Nat) (h : attempt ≤ 96038) :
    0 ≤ backoff attempt ∧ backoff attempt < 9223372036854775808 := by
  have h2 : attempt * attempt ≤ 96038 * 96038 := Nat.mul_le_mul h h
  have h3 : ((attempt * attempt : Nat) : Int) ≤ 9223297444 := by
    have h5 : attempt * attempt ≤ 9223297444 := h2
    exact_mod_cast h5
  have h4 : (0 : Int) ≤ ((attempt * attempt : Nat) : Int) := Int.ofNat_nonneg _
  show 0 ≤ ((attempt * attempt : Nat) : Int) * 1000000000 ∧
    ((attempt * attempt : Nat) : Int) * 1000000000 < 9223372036854775808
  constructor <;> omega

/-- A sum of waits of whole seconds is the sum of the seconds. -/
theorem sum_squares_seconds (n : Nat) :
    ((List.range n).map (fun k => (((k + 1) * (k + 1) : Nat) : Int) * Second)).sum =
      ((((List.range n).map (fun k => (k + 1) * (k + 1))).sum : Nat) : Int) * Second := by
  induction n with
  | zero => simp
  | succ i ih =>
    rw [List.sum_range_succ, List.sum_range_succ, ih]
    push_cast
    ring

/-- C11. Backoff schedule of `GenerateSummary`: the first attempt is made
without delay and the wait before the attempt that follows `k` failed attempts
is `k * k` seconds, so a call that succeeds after `n` failed attempts
(`n <= maxRetries`) has waited `1 + 4 + ... + n^2 = n(n+1)(2n+1)/6` seconds in
total. -/
theorem backoff_schedule (s : AIService) (env : SummaryEnv) (documentText : String) (n : Nat)
    (response : AIResponse) (choice : Choice) (rest : List Choice)
    (hn : (n : Int) ≤ s.maxRetries)
    (hfail : ∀ k, k < n →
      attemptError (makeRequest (env.exchange k (summaryRequest documentText))) ≠ none)
    (hctx : ∀ k, k ≤ n → env.ctxDone k = none)
    (hok : makeRequest (env.exchange n (summaryRequest documentText)) = .ok response)
    (hch : response.Choices = choice :: rest) :
    (GenerateSummary s env documentText).events =
      SummaryEvent.request 0 :: (List.range n).flatMap
        (fun k => [.wait ((((k + 1) * (k + 1) : Nat) : Int) * Second), .request (k + 1)]) ∧
    waits (GenerateSummary s env documentText).events =
      (List.range n).map (fun k => (((k + 1) * (k + 1) : Nat) : Int) * Second) ∧
    (waits (GenerateSummary s env documentText).events).sum =
      ((n * (n + 1) * (2 * n + 1) / 6 : Nat) : Int) * Second := by
  have hlt : n < (s.maxRetries + 1).toNat := by omega
  have hrun := summaryLoop_first_success s env (summaryRequest documentText) response choice
    rest n (s.maxRetries + 1).toNat 0 none hlt
    (fun k _ h2 => hfail k (by omega))
    (fun k _ _ h3 => hctx k (by omega))
    (by rw [Nat.zero_add]; exact hok) hch
  have hev : (GenerateSummary s env documentText).events = eventsFrom 0 (n + 1) := by
    unfold GenerateSummary
    rw [hrun]
  have hflat : (List.range n).flatMap
        (fun i => [SummaryEvent.wait (backoff (1 + i)), .request (1 + i)]) =
      (List.range n).flatMap
        (fun k => [.wait ((((k + 1) * (k + 1) : Nat) : Int) * Second), .request (k + 1)]) := by
    apply List.flatMap_congr
    intro i _
    rw [Nat.add_comm 1 i]
    rfl
  have hmap : (List.range n).map (fun i => backoff (1 + i)) =
      (List.range n).map (fun k => (((k + 1) * (k + 1) : Nat) : Int) * Second) := by
    apply List.map_congr_left
    intro i _
    rw [Nat.add_comm 1 i]
    rfl
  have hw : waits (GenerateSummary s env documentText).events =
      (List.range n).map (fun k => (((k + 1) * (k + 1) : Nat) : Int) * Second) := by
    rw [hev, eventsFrom_zero]
    show waits (eventsFrom 1 n) = _
    rw [waits_eventsFrom_pos n 1 (by omega), hmap]
  refine ⟨?_, hw, ?_⟩
  · rw [hev, eventsFrom_zero, eventsFrom_pos_eq n 1 (by omega), hflat]
  · rw [hw]
    have hsum := sum_squares_seconds n
    rw [hsum, Nat.div_eq_of_eq_mul_right (by norm_num : 0 < 6) (sum_squares_six n).symm]

/-- C11, in use: against `flakyBackend` the worker client fails twice and
succeeds on the third attempt, having waited 1 and then 4 seconds. -/
theorem backoff_schedule_witness :
    (GenerateSummary workerAI flakyBackend "sale deed text").events =
      [.request 0, .wait (1 * Second), .request 1, .wait (4 * Second), .request 2] ∧
    (waits (GenerateSummary workerAI flakyBackend "sale deed text").events).sum = 5 * Second :=
  have h := backoff_schedule workerAI flakyBackend "sale deed text" 2
    { Choices := [{ Message := { Role := "assistant", Content := "  a sale deed \n" } }] }
    { Message := { Role := "assistant", Content := "  a sale deed \n" } } []
    (by decide) (by decide) (fun _ _ => rfl) rfl rfl
  ⟨h.1, h.2.2⟩

/-- C12, amended. For every configured `maxRetries >= 1` and every sequence of
backend outcomes, a single `GenerateSummary` call makes at most
`maxRetries + 1` requests: the first attempt and up to `maxRetries` retries. -/
theorem request_bound (s : AIService) (env : SummaryEnv) (documentText : String)
    (hmax : 1 ≤ s.maxRetries) :
    (requestCount (GenerateSummary s env documentText).events : Int) ≤ s.maxRetries + 1 := by
  have h := summaryLoop_requestCount s env (summaryRequest documentText)
    (s.maxRetries + 1).toNat 0 none
  unfold GenerateSummary
  omega

/-- C12, in use: the worker client against `deadBackend` makes four requests,
one more than its `maxRetries` of 3. -/
theorem request_bound_witness :
    requestCount (GenerateSummary workerAI deadBackend "sale deed text").events = 4 ∧
    (requestCount (GenerateSummary workerAI deadBackend "sale deed text").events : Int)
      ≤ workerAI.maxRetries + 1 :=
  ⟨by decide, request_bound workerAI deadBackend "sale deed text" (by decide)⟩

/-- C12 as stated fails: a client configured with `maxRetries = 1` sends two
requests when both attempts fail, more than `maxRetries`. -/
theorem request_bound_counterexample :
    oneRetryAI.maxRetries = 1 ∧
    (GenerateSummary oneRetryAI deadBackend "sale deed text").events =
      [.request 0, .wait (1 * Second), .request 1] ∧
    requestCount (GenerateSummary oneRetryAI deadBackend "sale deed text").events = 2 ∧
    ¬ ((requestCount (GenerateSummary oneRetryAI deadBackend "sale deed text").events : Int)
        ≤ oneRetryAI.maxRetries) := by
  refine ⟨by decide, by decide, by decide, by decide⟩

/-- C13. Exhaustion: for `maxRetries >= 0`, when every attempt fails and the
context is never cancelled, `GenerateSummary` returns the empty string and one
error, which wraps the error of the last attempt made, the one with index
`maxRetries`. -/
theorem exhaustion (s : AIService) (env : SummaryEnv) (documentText : String)
    (hmax : 0 ≤ s.maxRetries)
    (hfail : ∀ k, k ≤ s.maxRetries.toNat →
      attemptError (makeRequest (env.exchange k (summaryRequest documentText))) ≠ none)
    (hctx : ∀ k, k ≤ s.maxRetries.toNat → env.ctxDone k = none) :
    (GenerateSummary s env documentText).summary = "" ∧
    (∃ e, (GenerateSummary s env documentText).err = some e ∧
      e.unwrap = attemptError
        (makeRequest (env.exchange s.maxRetries.toNat (summaryRequest documentText))) ∧
      e.unwrap ≠ none) ∧
    requestCount (GenerateSummary s env documentText).events = s.maxRetries.toNat + 1 ∧
    (GenerateSummary s env documentText).events.getLast? =
      some (.request s.maxRetries.toNat) := by
  have hn : (s.maxRetries + 1).toNat = s.maxRetries.toNat + 1 := by omega
  have hrun := summaryLoop_all_fail s env (summaryRequest documentText)
    (s.maxRetries.toNat + 1) 0 none
    (fun k _ h2 => ⟨hfail k (by omega), fun _ => hctx k (by omega)⟩)
  rw [if_neg (Nat.succ_ne_zero _)] at hrun
  have hidx : 0 + (s.maxRetries.toNat + 1) - 1 = s.maxRetries.toNat := by omega
  rw [hidx] at hrun
  unfold GenerateSummary
  rw [hn, hrun]
  have hlast := hfail s.maxRetries.toNat (le_refl _)
  refine ⟨rfl, ?_, requestCount_eventsFrom _ _, ?_⟩
  · cases he : attemptError
        (makeRequest (env.exchange s.maxRetries.toNat (summaryRequest documentText))) with
    | none => exact absurd he hlast
    | some e0 =>
      refine ⟨_, rfl, ?_, ?_⟩
      · simp [exhaustedError, GoError.unwrap]
      · simp [exhaustedError, GoError.unwrap]
  · have h := eventsFrom_getLast s.maxRetries.toNat 0
    rw [Nat.zero_add] at h
    exact h

/-- C13, in use: against `deadBackend` the worker client gives up with an error
wrapping the status-500 error of its fourth attempt, not the refused
connections before it. -/
theorem exhaustion_witness :
    (GenerateSummary workerAI deadBackend "sale deed text").summary = "" ∧
    (∃ e, (GenerateSummary workerAI deadBackend "sale deed text").err = some e ∧
      e.unwrap = some (.errorf "API request failed with status 500: down")) :=
  have h := exhaustion workerAI deadBackend "sale deed text" (by decide) (by decide)
    (fun _ _ => rfl)
  ⟨h.1, h.2.1.elim (fun e he => ⟨e, he.1, by rw [he.2.1]; decide⟩)⟩

/-- C14. First success wins: when the attempt with index `m <= maxRetries` is
the earliest to return a response with at least one choice and no wait before
it is cut short, `GenerateSummary` returns a nil error and the content of the
first choice of that response with leading and trailing white space removed;
the failures before it are retried and the last request made is that one. -/
theorem first_success_wins (s : AIService) (env : SummaryEnv) (documentText : String)
    (m : Nat) (response : AIResponse) (choice : Choice) (rest : List Choice)
    (hm : (m : Int) ≤ s.maxRetries)
    (hearlier : ∀ k, k < m →
      attemptError (makeRequest (env.exchange k (summaryRequest documentText))) ≠ none)
    (hctx : ∀ k, 0 < k → k ≤ m → env.ctxDone k = none)
    (hok : makeRequest (env.exchange m (summaryRequest documentText)) = .ok response)
    (hch : response.Choices = choice :: rest) :
    (GenerateSummary s env documentText).err = none ∧
    (GenerateSummary s env documentText).summary = TrimSpace choice.Message.Content ∧
    requestCount (GenerateSummary s env documentText).events = m + 1 ∧
    (GenerateSummary s env documentText).events.getLast? = some (.request m) := by
  have hlt : m < (s.maxRetries + 1).toNat := by omega
  have hrun := summaryLoop_first_success s env (summaryRequest documentText) response choice
    rest m (s.maxRetries + 1).toNat 0 none hlt
    (fun k _ h2 => hearlier k (by omega))
    (fun k h1 _ h3 => hctx k h1 (by omega))
    (by rw [Nat.zero_add]; exact hok) hch
  unfold GenerateSummary
  rw [hrun]
  refine ⟨rfl, rfl, requestCount_eventsFrom _ _, ?_⟩
  have h := eventsFrom_getLast m 0
  rw [Nat.zero_add] at h
  exact h

/-- C14, in use: against `flakyBackend` the third attempt is the first with a
choice; its content comes back trimmed and no fourth request is made. -/
theorem first_success_wins_witness :
    (GenerateSummary workerAI flakyBackend "sale deed text").err = none ∧
    (GenerateSummary workerAI flakyBackend "sale deed text").summary = "a sale deed" ∧
    requestCount (GenerateSummary workerAI flakyBackend "sale deed text").events = 3 :=
  have h := first_success_wins workerAI flakyBackend "sale deed text" 2
    { Choices := [{ Message := { Role := "assistant", Content := "  a sale deed \n" } }] }
    { Message := { Role := "assistant", Content := "  a sale deed \n" } } []
    (by decide) (by decide) (fun _ _ _ => rfl) rfl rfl
  ⟨h.1, by rw [h.2.1]; decide, h.2.2.1⟩

/-! ### The streaming producer -/

/-- While the context is not done and the sends proceed, the loop sends the
chunks of the frames it decodes and goes on with what follows them. -/
theorem streamFrames_ok_frames (env : StreamEnv) (good : List StreamResponse)
    (rest : List (Except GoError StreamResponse)) :
    ∀ i, (∀ k, k < good.length →
        env.topDone (i + k) = false ∧ (env.sendReady (i + k)).takesOp = true) →
      streamFrames env (good.map Except.ok ++ rest) i =
        (good.filterMap frameChunk ++ (streamFrames env rest (i + good.length)).1,
          (streamFrames env rest (i + good.length)).2) := by
  induction good with
  | nil => intro i _; simp
  | cons f good ih =>
    intro i h
    have h0 := h 0 (by simp)
    rw [Nat.add_zero] at h0
    have hrec := ih (i + 1) (fun k hk => by
      have := h (k + 1) (by simp only [List.length_cons]; omega)
      rw [show i + (k + 1) = i + 1 + k by omega] at this
      exact this)
    have hlen : i + 1 + good.length = i + (f :: good).length := by
      simp only [List.length_cons]
      omega
    rw [hlen] at hrec
    simp only [List.map_cons, List.cons_append]
    rw [streamFrames]
    simp only [h0.1, Bool.false_eq_true, if_false]
    cases hc : frameChunk f with
    | none =>
      simp only [List.filterMap_cons, hc]
      exact hrec
    | some content =>
      simp only [h0.2, if_true, List.filterMap_cons, hc, hrec, List.cons_append]

/-- C15. Stream producer output: for every finite sequence of frames, with a
context that is never done and sends that all proceed, the values placed on the
channel are the first-choice `Delta.Content` of each decoded frame that has a
choice and non-empty content, in frame order; nothing follows when the stream
ends at EOF, and exactly one more value, `"Error: "` followed by the error
message, follows when a frame fails to decode, when the request fails or when
the status is not 200; the channel is then closed. -/
theorem stream_output (env : StreamEnv) (question documentContext : String)
    (hctx : ∀ i, env.topDone i = false) (hsend : ∀ i, env.sendReady i = .opOnly)
    (herr : env.errReady = .opOnly) :
    (∀ (body : String) (good : List StreamResponse),
      env.exchange (queryRequest question documentContext) =
        .response 200 body (good.map Except.ok) →
      StreamQuery env question documentContext =
        (good.filterMap frameChunk).map ChanEvent.send ++ [.close]) ∧
    (∀ (body : String) (good : List StreamResponse) (e : GoError)
        (rest : List (Except GoError StreamResponse)),
      env.exchange (queryRequest question documentContext) =
        .response 200 body (good.map Except.ok ++ .error e :: rest) →
      StreamQuery env question documentContext =
        (good.filterMap frameChunk).map ChanEvent.send ++
          [.send ("Error: " ++ (GoError.wrapf "failed to decode stream response: %w" e).Error),
            .close]) ∧
    (∀ (code : Int) (body : String) (frames : List (Except GoError StreamResponse)),
      env.exchange (queryRequest question documentContext) = .response code body frames →
      code ≠ 200 →
      StreamQuery env question documentContext =
        [.send ("Error: " ++
            ("API request failed with status " ++ toString code ++ ": " ++ body)),
          .close]) ∧
    (∀ e : GoError,
      (env.exchange (queryRequest question documentContext) = .transportError e →
        StreamQuery env question documentContext =
          [.send ("Error: " ++ (GoError.wrapf "failed to make request: %w" e).Error), .close]) ∧
      (env.exchange (queryRequest question documentContext) = .requestError e →
        StreamQuery env question documentContext =
          [.send ("Error: " ++ (GoError.wrapf "failed to create request: %w" e).Error),
            .close]) ∧
      (env.exchange (queryRequest question documentContext) = .marshalError e →
        StreamQuery env question documentContext =
          [.send ("Error: " ++ (GoError.wrapf "failed to marshal request: %w" e).Error),
            .close])) := by
  have hgo : ∀ k : Nat, env.topDone k = false ∧ (env.sendReady k).takesOp = true :=
    fun k => ⟨hctx k, by rw [hsend k]; rfl⟩
  have hop : env.errReady.takesOp = true := by rw [herr]; rfl
  refine ⟨?_, ?_, ?_, ?_⟩
  · intro body good hx
    have h := streamFrames_ok_frames env good [] 0 (fun k _ => hgo (0 + k))
    rw [List.append_nil] at h
    unfold StreamQuery streamRequest
    rw [hx]
    simp only [ne_eq, not_true_eq_false, if_false, h, streamFrames, hctx,
      Bool.false_eq_true, List.append_nil]
  · intro body good e rest hx
    have h := streamFrames_ok_frames env good (.error e :: rest) 0 (fun k _ => hgo (0 + k))
    unfold StreamQuery streamRequest
    rw [hx]
    simp only [ne_eq, not_true_eq_false, if_false, h, streamFrames, hctx,
      Bool.false_eq_true, List.append_nil, hop, if_true, List.append_assoc,
      List.singleton_append]
  · intro code body frames hx hcode
    unfold StreamQuery streamRequest
    rw [hx]
    simp only [ne_eq, hcode, not_false_eq_true, if_true, List.map_nil, List.nil_append, hop,
      GoError.Error, List.singleton_append]
  · intro e
    refine ⟨?_, ?_, ?_⟩
    · intro hx
      unfold StreamQuery streamRequest
      rw [hx]
      simp only [List.map_nil, List.nil_append, hop, if_true, List.singleton_append]
    · intro hx
      unfold StreamQuery streamRequest
      rw [hx]
      simp only [List.map_nil, List.nil_append, hop, if_true, List.singleton_append]
    · intro hx
      unfold StreamQuery streamRequest
      rw [hx]
      simp only [List.map_nil, List.nil_append, hop, if_true, List.singleton_append]

/-- C15, in use: the four frames of `chattyStream` give two values and the
closing of the channel. -/
theorem stream_output_witness :
    StreamQuery chattyStream "Who is the buyer?" "sale deed text" =
      [.send "Hello", .send " world", .close] :=
  (stream_output chattyStream "Who is the buyer?" "sale deed text" (fun _ => rfl)
    (fun _ => rfl) rfl).1 ""
    [frameOf "Hello", { Choices := [] }, frameOf "", frameOf " world"] rfl

theorem streamLoop_chunks (chunks : List String) (rest : List RecvReady) :
    streamLoop (chunks.map (fun c => RecvReady.recvOnly (some c)) ++ rest) =
      (chunks.map messageEvent ++ (streamLoop rest).1, (streamLoop rest).2) := by
  induction chunks with
  | nil => simp
  | cons c chunks ih =>
    simp only [List.map_cons, List.cons_append]
    rw [streamLoop, ih]
    simp [streamStep, RecvReady.received, messageEvent]

/-- What `QueryDocument` answers for a COMPLETED document: the stream. -/
theorem QueryDocument_completed (db : Table) (id : String) (row : Row) (req : QueryRequest)
    (schedule : List RecvReady) (hid : id ≠ "") (hrow : db id = some row)
    (hdone : row.status = .StatusCompleted) :
    QueryDocument db none id (.ok req) schedule =
      .stream req.Question row.raw_text sseHeaders (streamLoop schedule).1
        (streamLoop schedule).2 := by
  unfold QueryDocument queryGate
  rw [if_neg hid, GetDocument_ok db id row hrow]
  simp [Row.toDocument, hdone, sseHeaders]

/-- C17. Proxy forwarding: for every finite list of chunks delivered on the
channel and followed by its closing, with no deadline or cancellation firing,
the stream loop of `QueryDocument` emits exactly one `message` event for each
chunk, carrying that chunk unchanged, in the order produced, then stops, and
emits no `error` event. -/
theorem proxy_forwarding (db : Table) (id : String) (row : Row) (req : QueryRequest)
    (chunks : List String) (hid : id ≠ "") (hrow : db id = some row)
    (hdone : row.status = .StatusCompleted) :
    QueryDocument db none id (.ok req)
        (chunks.map (fun c => RecvReady.recvOnly (some c)) ++ [.recvOnly none]) =
      .stream req.Question row.raw_text sseHeaders
        (chunks.map (fun c => { name := "message", data := c })) true ∧
    ∀ e ∈ chunks.map (fun c => ({ name := "message", data := c } : SSEvent)),
      e.name ≠ "error" := by
  constructor
  · rw [QueryDocument_completed db id row req _ hid hrow hdone, streamLoop_chunks]
    simp [streamLoop, streamStep, RecvReady.received, messageEvent]
  · intro e he
    obtain ⟨c, _, rfl⟩ := List.mem_map.mp he
    show "message" ≠ "error"
    decide

/-- C17, in use: five chunks and the closing of the channel for the COMPLETED
doc-1. -/
theorem proxy_forwarding_witness :
    QueryDocument completedTable none "doc-1" (.ok { Question := "Who is the buyer?" })
        [.recvOnly (some "The"), .recvOnly (some " buyer"), .recvOnly (some " is"),
          .recvOnly (some " Asha"), .recvOnly (some "."), .recvOnly none] =
      .stream "Who is the buyer?" "sale deed text" sseHeaders
        [messageEvent "The", messageEvent " buyer", messageEvent " is", messageEvent " Asha",
          messageEvent "."] true :=
  (proxy_forwarding completedTable "doc-1" completedRow { Question := "Who is the buyer?" }
    ["The", " buyer", " is", " Asha", "."] (by decide) (by decide) rfl).1

/-- C19. Query gating: for every stored document whose status is PENDING,
PROCESSING or FAILED and every well-formed question, `QueryDocument` and
`QueryDocumentSimple` both answer the `DOCUMENT_NOT_READY` rejection whose
details are `"Document status: "` followed by the current status, and
`StreamQuery` is not called. -/
theorem query_gating (db : Table) (id : String) (row : Row) (req : QueryRequest)
    (schedule : List RecvReady) (hid : id ≠ "") (hrow : db id = some row)
    (hstatus : row.status = .StatusPending ∨ row.status = .StatusProcessing ∨
      row.status = .StatusFailed) :
    QueryDocument db none id (.ok req) schedule =
      .json 400 { Error := "Document is not ready for queries", Code := "DOCUMENT_NOT_READY",
                  Details := "Document status: " ++ row.status.toString } ∧
    QueryDocumentSimple db none id (.ok req) =
      .json 400 { Error := "Document is not ready for queries", Code := "DOCUMENT_NOT_READY",
                  Details := "Document status: " ++ row.status.toString } ∧
    (QueryDocument db none id (.ok req) schedule).calledStreamQuery = false ∧
    (QueryDocumentSimple db none id (.ok req)).calledStreamQuery = false := by
  have hne : row.status ≠ .StatusCompleted := by
    rcases hstatus with h | h | h <;> rw [h] <;> decide
  have hgate : queryGate db none id (.ok req) =
      .error (.json 400
        { Error := "Document is not ready for queries", Code := "DOCUMENT_NOT_READY",
          Details := "Document status: " ++ row.status.toString }) := by
    unfold queryGate
    rw [if_neg hid, GetDocument_ok db id row hrow]
    simp [Row.toDocument, hne]
  unfold QueryDocument QueryDocumentSimple
  rw [hgate]
  exact ⟨rfl, rfl, rfl, rfl⟩

/-- C19, in use: a query for the PENDING doc-1. -/
theorem query_gating_witness :
    QueryDocument createdTable none "doc-1" (.ok { Question := "Who is the buyer?" })
        [.recvOnly (some "The")] =
      .json 400 { Error := "Document is not ready for queries", Code := "DOCUMENT_NOT_READY",
                  Details := "Document status: PENDING" } :=
  (query_gating createdTable "doc-1" createdRow { Question := "Who is the buyer?" }
    [.recvOnly (some "The")] (by decide) (by decide) (Or.inl rfl)).1

/-- C20. Unknown ids: for every document id that is not in the store,
`GetDocument`, `UpdateDocumentStatus` and `UpdateDocumentSummary`, their
statement being executed, each return the error `document not found` and leave
the store unchanged. -/
theorem unknown_id (db : Table) (id : String) (call : DbCall) (status : DocumentStatus)
    (summary : String) (hnone : db id = none) (hcall : call.err = none) :
    GetDocument db none id = .error (.errorf "document not found") ∧
    UpdateDocumentStatus db call id status = (db, some (.errorf "document not found")) ∧
    UpdateDocumentSummary db call id summary = (db, some (.errorf "document not found")) := by
  refine ⟨?_, ?_, ?_⟩
  · simp [GetDocument, hnone]
  · simp [UpdateDocumentStatus, hcall, hnone]
  · simp [UpdateDocumentSummary, hcall, hnone]

/-- C20, in use: doc-2 is not in `createdTable`. -/
theorem unknown_id_witness :
    GetDocument createdTable none "doc-2" = .error (.errorf "document not found") ∧
    (UpdateDocumentStatus createdTable { err := none, now := 5 } "doc-2" .StatusFailed).2 =
      some (.errorf "document not found") ∧
    (UpdateDocumentStatus createdTable { err := none, now := 5 } "doc-2" .StatusFailed).1
      "doc-1" = createdTable "doc-1" :=
  have h := unknown_id createdTable "doc-2" { err := none, now := 5 } .StatusFailed "x"
    (by decide) rfl
  ⟨h.1, by rw [h.2.1], by rw [h.2.1]⟩

/-! ### Upload -/

/-- C21. Upload does not depend on the queue: for every upload for which
`ValidateFile` succeeds, `Extract` returns non-empty text and `CreateDocument`
succeeds, `UploadDocument` calls `EnqueueSummaryGeneration` once, with the id
of the created document, and responds 200 with the id, filename and raw text
of that document, whether the enqueue returns nil or an error. -/
theorem upload_ignores_queue (env : UploadEnv) (header : FileHeader) (text : String)
    (document : Document) (hfile : env.formFile = .ok header)
    (hvalid : env.validateFile header 100 = none)
    (hextract : env.extract header.ContentType = .ok text) (htext : text ≠ "")
    (hcreate : env.createDocument header.Filename text header.ContentType header.Size =
      .ok document) :
    (UploadDocument env).enqueued = [document.ID] ∧
    (UploadDocument env).response =
      .uploaded 200 { DocumentID := document.ID, Filename := document.Filename,
                      RawText := document.RawText } ∧
    (∀ queue : String → Option GoError,
      (UploadDocument { env with enqueueSummaryGeneration := queue }).response =
        (UploadDocument env).response ∧
      (UploadDocument { env with enqueueSummaryGeneration := queue }).enqueued =
        (UploadDocument env).enqueued) := by
  have hlen : ¬ text.length = 0 := by
    intro h
    apply htext
    cases text with
    | mk data =>
      have : data = [] := List.length_eq_zero.mp h
      rw [this]
  have hrun : ∀ queue : String → Option GoError,
      (UploadDocument { env with enqueueSummaryGeneration := queue }).response =
        .uploaded 200 { DocumentID := document.ID, Filename := document.Filename,
                        RawText := document.RawText } ∧
      (UploadDocument { env with enqueueSummaryGeneration := queue }).enqueued =
        [document.ID] := by
    intro queue
    unfold UploadDocument
    simp only [hfile, hvalid, hextract, hlen, if_false, hcreate]
    exact ⟨trivial, trivial⟩
  have hself := hrun env.enqueueSummaryGeneration
  refine ⟨hself.2, hself.1, ?_⟩
  intro queue
  exact ⟨(hrun queue).1.trans hself.1.symm, (hrun queue).2.trans hself.2.symm⟩

/-- C21, in use: the upload of deed.pdf answers 200 with doc-1 although the
queue refuses the task. -/
theorem upload_ignores_queue_witness :
    (UploadDocument (deedUpload (some (.errorf "redis: connection refused")))).response =
      .uploaded 200 { DocumentID := "doc-1", Filename := "deed.pdf",
                      RawText := "sale deed text" } ∧
    (UploadDocument (deedUpload (some (.errorf "redis: connection refused")))).enqueued =
      ["doc-1"] :=
  have h := upload_ignores_queue (deedUpload (some (.errorf "redis: connection refused")))
    deedHeader "sale deed text" (createdRow.toDocument "doc-1") rfl (by decide) rfl (by decide)
    rfl
  ⟨h.2.1, h.1⟩

/-! ### The status response -/

theorem failedAfterCompletedTable_reachable : Reachable failedAfterCompletedTable := by
  refine Reachable.handle completedTable failedAfterCompletedTable (Task.forDocument "doc-1")
    aiDown completedTable_reachable ?_
  unfold failedAfterCompletedTable
  rw [handle_ai_failure completedTable aiDown "doc-1" completedRow
    (.errorf "context deadline exceeded") (by decide) rfl rfl rfl rfl]
  simp

/-- C22, amended. For every stored document, the result built by
`GetDocumentStatus` carries the status of the document and carries its summary
exactly when the stored summary is present, whatever the status: the handler
does not look at the status before it copies the summary. -/
theorem status_response (db : Table) (id : String) (row : Row) (hid : id ≠ "")
    (hrow : db id = some row) :
    GetDocumentStatus db none id =
      .status 200 { Status := row.status, Summary := row.summary } := by
  unfold GetDocumentStatus
  rw [if_neg hid, GetDocument_ok db id row hrow]
  cases hs : row.summary with
  | none => simp [Row.toDocument, hs]
  | some summary => simp [Row.toDocument, hs]

/-- C22, in use: the COMPLETED doc-1 with its summary. -/
theorem status_response_witness :
    GetDocumentStatus completedTable none "doc-1" =
      .status 200 { Status := .StatusCompleted, Summary := some "a sale deed" } :=
  status_response completedTable "doc-1" completedRow (by decide) (by decide)

/-- C22 as stated fails: in the reachable store `failedAfterCompletedTable`
doc-1 is FAILED and still has the summary of its earlier run; the status
response carries status FAILED together with that summary. -/
theorem status_response_counterexample :
    Reachable failedAfterCompletedTable ∧
    GetDocumentStatus failedAfterCompletedTable none "doc-1" =
      .status 200 { Status := .StatusFailed, Summary := some "a sale deed" } :=
  ⟨failedAfterCompletedTable_reachable, by decide⟩

/-! ### The sweep -/

/-- C23. Sweep postcondition: after `cleanup` at clock reading `t` a client is
tracked exactly when it had at least one timestamp strictly after `t - window`
before the call, the history of each tracked client is its previous history
restricted to those timestamps in the same order, and no client with an empty
history remains in the map. -/
theorem cleanup_postcondition (rl : RateLimiter) (t : Int) (ip : String) :
    ((rl.cleanup t).requests ip ≠ none ↔ ∃ a ∈ rl.history ip, t - rl.window < a) ∧
    (∀ h, (rl.cleanup t).requests ip = some h →
      h = (rl.history ip).filter (fun a => decide (t - rl.window < a)) ∧ h ≠ []) ∧
    (rl.cleanup t).limit = rl.limit ∧ (rl.cleanup t).window = rl.window := by
  have hcl : (rl.cleanup t).requests ip =
      match rl.requests ip with
      | none => none
      | some requests =>
        if (validRequests (t - rl.window) requests).length = 0 then none
        else some (validRequests (t - rl.window) requests) := by
    unfold RateLimiter.cleanup Add
    simp only [← sub_eq_add_neg]
  refine ⟨?_, ?_, rfl, rfl⟩
  · rw [hcl]
    unfold RateLimiter.history
    cases hr : rl.requests ip with
    | none => simp
    | some requests =>
      simp only [Option.getD_some]
      by_cases hv : (validRequests (t - rl.window) requests).length = 0
      · rw [if_pos hv]
        have hnil := List.length_eq_zero.mp hv
        rw [validRequests_eq_filter, List.filter_eq_nil_iff] at hnil
        simp only [ne_eq, not_true_eq_false, false_iff, not_exists, not_and]
        intro a ha hlt
        exact hnil a ha (by simpa using hlt)
      · rw [if_neg hv]
        simp only [ne_eq, reduceCtorEq, not_false_eq_true, true_iff]
        have hne : validRequests (t - rl.window) requests ≠ [] :=
          fun h => hv (by rw [h]; rfl)
        obtain ⟨a, ha⟩ := List.exists_mem_of_ne_nil _ hne
        rw [validRequests_eq_filter, List.mem_filter] at ha
        exact ⟨a, ha.1, by simpa using ha.2⟩
  · intro h hh
    rw [hcl] at hh
    unfold RateLimiter.history
    cases hr : rl.requests ip with
    | none =>
      rw [hr] at hh
      simp at hh
    | some requests =>
      rw [hr] at hh
      simp only [Option.getD_some] at hh ⊢
      by_cases hv : (validRequests (t - rl.window) requests).length = 0
      · rw [if_pos hv] at hh
        simp at hh
      · rw [if_neg hv] at hh
        simp only [Option.some.injEq] at hh
        rw [← hh, ← validRequests_eq_filter]
        exact ⟨rfl, fun h0 => hv (by rw [h0]; rfl)⟩

/-- C23, in use: a sweep of `busyLimiter` at clock reading 1250 (cutoff 250)
drops client A, whose timestamps have all expired, and keeps client B with its
timestamp 400. -/
theorem cleanup_postcondition_witness :
    busyLimiter.requests "A" = some [0, 100, 200] ∧
    busyLimiter.requests "B" = some [400] ∧
    (busyLimiter.cleanup 1250).requests "A" = none ∧
    (busyLimiter.cleanup 1250).requests "B" = some [400] ∧
    ((busyLimiter.cleanup 1250).requests "B" ≠ none ↔
      ∃ a ∈ busyLimiter.history "B", 1250 - busyLimiter.window < a) :=
  ⟨by decide, by decide, by decide, by decide, (cleanup_postcondition busyLimiter 1250 "B").1⟩

/-! ### File validation -/

/-- C24 as stated fails: `ValidateFile` rejects document.docx, which the claim
lists as accepted; it accepts `.pdf`, a name with no character before the
extension, and DEED.PDF, whose extension is in upper case.  The other six
names of the claim behave as it says. -/
theorem validate_rejects_docx :
    ValidateFile apiProcessor (fileNamed "document.docx") 100 =
      some (.errorf "unsupported file type. Only .txt and .pdf files are allowed") ∧
    ValidateFile apiProcessor (fileNamed "document.pdf") 100 = none ∧
    ValidateFile apiProcessor (fileNamed "document.txt") 100 = none ∧
    ValidateFile apiProcessor (fileNamed "document.doc") 100 ≠ none ∧
    ValidateFile apiProcessor (fileNamed "document.xlsx") 100 ≠ none ∧
    ValidateFile apiProcessor (fileNamed "document") 100 ≠ none ∧
    ValidateFile apiProcessor (fileNamed "") 100 ≠ none ∧
    ValidateFile apiProcessor (fileNamed ".pdf") 100 = none ∧
    ValidateFile apiProcessor (fileNamed "DEED.PDF") 100 = none := by
  refine ⟨by decide, by decide, by decide, by decide, by decide, by decide, by decide,
    by decide, by decide⟩

theorem startsWith_iff (s p : List Char) :
    startsWith s p = true ↔ ∃ t, s = p ++ t := by
  induction p generalizing s with
  | nil =>
    cases s <;> simp [startsWith]
  | cons d p ih =>
    cases s with
    | nil => simp [startsWith]
    | cons c s =>
      simp only [startsWith, Bool.and_eq_true, beq_iff_eq, ih, List.cons_append,
        List.cons.injEq]
      constructor
      · rintro ⟨rfl, t, rfl⟩
        exact ⟨t, rfl, rfl⟩
      · rintro ⟨t, rfl, rfl⟩
        exact ⟨rfl, t, rfl⟩

theorem HasSuffix_iff (s suffix : String) :
    HasSuffix s suffix = true ↔ ∃ stem : List Char, s.data = stem ++ suffix.data := by
  unfold HasSuffix
  rw [startsWith_iff]
  constructor
  · rintro ⟨t, ht⟩
    refine ⟨t.reverse, ?_⟩
    have := congrArg List.reverse ht
    simpa using this
  · rintro ⟨stem, hs⟩
    refine ⟨stem.reverse, ?_⟩
    rw [hs]
    simp

/-- C24, amended. File-extension validation: for every file within the size
limit, the file is accepted exactly when its name, put in lower case, ends in
`.pdf` or `.txt`; the case of the name is ignored and no character is needed
before the extension.  Every other name, among them the names ending in
`.docx`, `.doc` or `.xlsx`, the names without an extension and the empty name,
is rejected with the error that only `.txt` and `.pdf` files are allowed. -/
theorem validate_by_suffix (dp : DocumentProcessor) (header : FileHeader) (maxPages : Int)
    (hsize : header.Size ≤ dp.maxFileSize) :
    (ValidateFile dp header maxPages = none ↔
      ∃ stem : List Char,
        header.Filename.data.map Char.toLower = stem ++ ['.', 'p', 'd', 'f'] ∨
        header.Filename.data.map Char.toLower = stem ++ ['.', 't', 'x', 't']) ∧
    (ValidateFile dp header maxPages ≠ none →
      ValidateFile dp header maxPages =
        some (.errorf "unsupported file type. Only .txt and .pdf files are allowed")) := by
  have hnot : ¬ header.Size > dp.maxFileSize := not_lt.mpr hsize
  have hpdf := HasSuffix_iff (ToLower header.Filename) ".pdf"
  have htxt := HasSuffix_iff (ToLower header.Filename) ".txt"
  have hdata : (ToLower header.Filename).data = header.Filename.data.map Char.toLower := rfl
  rw [hdata] at hpdf htxt
  have hp : (".pdf" : String).data = ['.', 'p', 'd', 'f'] := rfl
  have ht : (".txt" : String).data = ['.', 't', 'x', 't'] := rfl
  rw [hp] at hpdf
  rw [ht] at htxt
  unfold ValidateFile
  rw [if_neg hnot]
  by_cases h1 : HasSuffix (ToLower header.Filename) ".txt" = true
  · obtain ⟨stem, hstem⟩ := htxt.mp h1
    simp only [h1, Bool.not_true, Bool.false_and, Bool.false_eq_true, if_false, true_iff,
      ne_eq, not_true_eq_false, false_implies, and_true]
    exact ⟨stem, Or.inr hstem⟩
  · by_cases h2 : HasSuffix (ToLower header.Filename) ".pdf" = true
    · obtain ⟨stem, hstem⟩ := hpdf.mp h2
      simp only [h2, Bool.not_true, Bool.and_false, Bool.false_eq_true, if_false, true_iff,
        ne_eq, not_true_eq_false, false_implies, and_true]
      exact ⟨stem, Or.inl hstem⟩
    · have h1f : HasSuffix (ToLower header.Filename) ".txt" = false := by
        cases hh : HasSuffix (ToLower header.Filename) ".txt"
        · rfl
        · exact absurd hh h1
      have h2f : HasSuffix (ToLower header.Filename) ".pdf" = false := by
        cases hh : HasSuffix (ToLower header.Filename) ".pdf"
        · rfl
        · exact absurd hh h2
      simp only [h1f, h2f, Bool.not_false, Bool.and_self, if_true, reduceCtorEq, false_iff,
        not_exists, not_or, ne_eq, not_false_eq_true, true_implies, and_true]
      intro stem
      exact ⟨fun h => h2 (hpdf.mpr ⟨stem, h⟩), fun h => h1 (htxt.mpr ⟨stem, h⟩)⟩

/-- C24, in use: Deed.PDF, within the size limit of the API server, is
accepted. -/
theorem validate_by_suffix_witness :
    ValidateFile apiProcessor (fileNamed "Deed.PDF") 100 = none :=
  (validate_by_suffix apiProcessor (fileNamed "Deed.PDF") 100 (by decide)).1.mpr
    ⟨['d', 'e', 'e', 'd'], Or.inl (by decide)⟩

/-! ### Shared state -/

theorem filter_validRequests_of_le (cutoff x : Int) (l : List Int) (hx : x ≤ cutoff) :
    (validRequests cutoff l).filter (fun a => decide (x < a)) = validRequests cutoff l := by
  rw [validRequests_eq_filter]
  apply List.filter_eq_self.mpr
  intro a ha
  have := (List.mem_filter.mp ha).2
  simp only [decide_eq_true_eq] at this ⊢
  omega

/-- Two limiter states with the same limit and window whose histories agree on
everything after any cutoff from `t - window` on give the same answers to all
calls made at clock readings from `t` on. -/
theorem runCalls_agree (t : Int) (calls : List Call) :
    ∀ s1 s2 : RateLimiter, s1.limit = s2.limit → s1.window = s2.window →
      (∀ c x, t - s1.window ≤ x →
        (s1.history c).filter (fun a => decide (x < a)) =
          (s2.history c).filter (fun a => decide (x < a))) →
      (∀ call ∈ calls, t ≤ call.now) →
      runCalls s1 calls = runCalls s2 calls := by
  induction calls with
  | nil => intro _ _ _ _ _ _; rfl
  | cons call rest ih =>
    intro s1 s2 hl hw hrel hlater
    have hnow : t ≤ call.now := hlater call (List.mem_cons_self _ _)
    have hrest : ∀ c ∈ rest, t ≤ c.now := fun c hc => hlater c (List.mem_cons_of_mem _ hc)
    cases call with
    | cleanup now =>
      simp only [Call.now] at hnow
      simp only [runCalls]
      apply ih (s1.cleanup now) (s2.cleanup now) hl hw _ hrest
      intro c x hx
      have hx1 : t - s1.window ≤ x := hx
      rw [cleanup_history, cleanup_history, ← hw]
      by_cases hcx : now - s1.window ≤ x
      · rw [filter_after_validRequests _ _ _ hcx, filter_after_validRequests _ _ _ hcx]
        exact hrel c x hx1
      · rw [filter_validRequests_of_le _ _ _ (by omega),
          filter_validRequests_of_le _ _ _ (by omega), validRequests_eq_filter,
          validRequests_eq_filter]
        exact hrel c (now - s1.window) (by omega)
    | allow ip now =>
      simp only [Call.now] at hnow
      have hvalid : validRequests (now - s1.window) (s1.history ip) =
          validRequests (now - s2.window) (s2.history ip) := by
        rw [← hw, validRequests_eq_filter, validRequests_eq_filter]
        exact hrel ip (now - s1.window) (by omega)
      have hres : (s1.allow ip now).1 = (s2.allow ip now).1 := by
        rw [allow_fst, allow_fst, hvalid, hl]
      simp only [runCalls, hres]
      congr 1
      apply ih (s1.allow ip now).2 (s2.allow ip now).2
        (by rw [allow_limit, allow_limit, hl]) (by rw [allow_window, allow_window, hw]) _ hrest
      intro c x hx
      rw [allow_window] at hx
      cases hb : (s2.allow ip now).1 with
      | false =>
        rw [allow_snd_of_false s1 ip now (by rw [hres, hb]), allow_snd_of_false s2 ip now hb]
        exact hrel c x hx
      | true =>
        by_cases hc : c = ip
        · subst hc
          rw [allow_history_self s1 c now (by rw [hres, hb]), allow_history_self s2 c now hb,
            hvalid]
        · have h1 : (s1.allow ip now).2.history c = s1.history c := by
            unfold RateLimiter.history
            rw [allow_history_other s1 ip c now (Ne.symm hc)]
          have h2 : (s2.allow ip now).2.history c = s2.history c := by
            unfold RateLimiter.history
            rw [allow_history_other s2 ip c now (Ne.symm hc)]
          rw [h1, h2]
          exact hrel c x hx

/-- C26. The sweep never changes an admission decision: for every limiter
state, every clock reading `t` and every sequence of later calls, all at clock
readings from `t` on, the booleans returned by the `allow` calls are the same
whether or not `cleanup` is run at `t` before them. -/
theorem cleanup_preserves_admissions (rl : RateLimiter) (t : Int) (calls : List Call)
    (hlater : ∀ call ∈ calls, t ≤ call.now) :
    runCalls (rl.cleanup t) calls = runCalls rl calls := by
  apply runCalls_agree t calls (rl.cleanup t) rl rfl rfl _ hlater
  intro c x hx
  have hx1 : t - rl.window ≤ x := hx
  rw [cleanup_history, filter_after_validRequests _ _ _ hx1]

/-- C26, in use: the calls of `laterCalls` on `busyLimiter`, with and without a
sweep at clock reading 1100 before them; the sweep drops two timestamps of
client A. -/
theorem cleanup_preserves_admissions_witness :
    (busyLimiter.cleanup 1100).requests "A" = some [200] ∧
    runCalls (busyLimiter.cleanup 1100) laterCalls = runCalls busyLimiter laterCalls ∧
    (runCalls busyLimiter laterCalls).map Admission.allowed =
      [true, true, false, true, true] :=
  ⟨by decide, cleanup_preserves_admissions busyLimiter 1100 laterCalls (by decide), by decide⟩

end PatraSaar
